import Mathlib

/-!
Verification of the kafka_go_pulsar broker (package kafsar).

The development shallowly embeds the two source files:
  * pkg/kafsar/group_coordinator_standalone.go — the standalone consumer-group
    coordinator (JoinGroup / SyncGroup / Heartbeat / LeaveGroup);
  * the Broker file (Produce / Fetch / OffsetCommit / ... handlers).

Modelling conventions:
  * Go maps become association lists (`List (String × α)`); a map write is
    `alistInsert` (which replaces any previous binding), `delete` is
    `alistErase`, and a read of a missing key yields `none` (for value reads
    the caller applies the Go zero value explicitly where the source does).
  * Byte slices become `List Nat`, Go `int`/`int64` become `Int`,
    `pulsar.MessageID` becomes an opaque `Nat` tag.
  * Coordinator handlers are modelled as atomic state transformers: the
    operation-level semantics of a *sequence* of handler calls.  Inside one
    call the barrier/poll loops (`awaitingJoin`, `awaitingSync`,
    `awaitingRebalance`) write nothing that a later iteration of the same
    call could observe differently, so each such loop is resolved by its
    first iteration's check: it succeeds iff the barrier already holds and
    otherwise takes the `sessionTimeoutMs` timeout branch.  `time.Sleep` is
    a no-op.  The `canRebalance` latch is kept as a field; within one atomic
    call `doRebalance` restores it before returning, exactly as the source
    does under `groupLock`.
  * A Go runtime fault (nil-pointer dereference) is modelled by returning
    `none` from the handler.
-/

/-- Kafka error codes used by the core (kafka-codec-go `codec` constants). -/
inductive ErrorCode where
  | NONE
  | INVALID_GROUP_ID
  | MEMBER_ID_REQUIRED
  | UNKNOWN_MEMBER_ID
  | INVALID_SESSION_TIMEOUT
  | GROUP_MAX_SIZE_REACHED
  | INCONSISTENT_GROUP_PROTOCOL
  | REBALANCE_IN_PROGRESS
  | COORDINATOR_LOAD_IN_PROGRESS
  | UNKNOWN_SERVER_ERROR
  | TOPIC_AUTHORIZATION_FAILED
  | SASL_AUTHENTICATION_FAILED
  | LEADER_NOT_AVAILABLE
deriving DecidableEq, Repr

/-- Go-map read: first binding of `key`, `none` when absent. -/
def alistLookup {α : Type} : List (String × α) → String → Option α
  | [], _ => none
  | (k, v) :: rest, key => if k = key then some v else alistLookup rest key

/-- Go-map write: bind `key` to `v`, dropping any previous binding.  (Go maps
are unordered, so the position of the new binding is immaterial; placing it at
the head keeps at most one binding per key by construction.) -/
def alistInsert {α : Type} (l : List (String × α)) (key : String) (v : α) :
    List (String × α) :=
  (key, v) :: l.filter (fun p => p.1 ≠ key)

/-- Go-map `delete`. -/
def alistErase {α : Type} (l : List (String × α)) (key : String) :
    List (String × α) :=
  l.filter (fun p => p.1 ≠ key)

/-! ## Offset commit walk (Broker.OffsetCommitPartition)  -/

/-- An entry of a reader's `pendingMessageIds` FIFO: the backend message id
(opaque tag) together with the converted Kafka-style offset. -/
structure MessageIdPair where
  messageId : Nat
  offset : Int
deriving DecidableEq, Repr

/-- Response record of OffsetCommitPartition (the fields the handler sets). -/
structure OffsetCommitPartitionResp where
  partitionId : Int
  errorCode : ErrorCode
deriving DecidableEq, Repr

/-- The `for i := 0; i < length; i++` walk of `OffsetCommitPartition` over the
`messageIds` FIFO.  At iteration `i` the front of the remaining list is the
`i`-th original entry (each earlier iteration removed exactly one front).
Returns the remaining FIFO and the entry passed to
`OffsetManager.CommitOffset` (modelled as always succeeding), if any.
The source's `front == nil` break coincides with list exhaustion. -/
def offsetCommitLoop (reqOffset : Int) (length : Nat) :
    Nat → List MessageIdPair → List MessageIdPair × Option MessageIdPair
  | _, [] => ([], none)
  | i, front :: rest =>
    if i < length then
      if front.offset = reqOffset ∨ (front.offset < reqOffset ∧ i = length - 1) then
        (rest, some front)
      else if front.offset > reqOffset then
        (front :: rest, none)
      else
        offsetCommitLoop reqOffset length (i + 1) rest
    else (front :: rest, none)

/-- `Broker.OffsetCommitPartition` from the point where the reader metadata for
`(partitioned-topic, clientId)` exists: walk the FIFO, persist at most one
entry through the Offset Manager collaborator (modelled as succeeding), and
answer `NONE`.  Result: (remaining FIFO, committed entry, response). -/
def offsetCommitPartition (pendingMessageIds : List MessageIdPair)
    (partitionId reqOffset : Int) :
    List MessageIdPair × Option MessageIdPair × OffsetCommitPartitionResp :=
  let r := offsetCommitLoop reqOffset pendingMessageIds.length 0 pendingMessageIds
  (r.1, r.2, { partitionId := partitionId, errorCode := ErrorCode.NONE })

/-- The walk as the specification words it: drop entries strictly below the
target that are not the final entry; commit and remove the first entry equal
to the target (or below it while being the final entry); stop at the first
entry strictly above the target, leaving it and all later entries. -/
def offsetCommitSpec (reqOffset : Int) (l : List MessageIdPair) :
    List MessageIdPair × Option MessageIdPair :=
  match l.dropWhile (fun p => decide (p.offset < reqOffset)) with
  | [] => ([], l.getLast?)
  | x :: rest => if x.offset = reqOffset then (rest, some x) else (x :: rest, none)

/-! ## Fetch pipeline (Broker.FetchPartition read loop)  -/

/-- A backend message as the fetch loop observes it: opaque id, payload bytes,
and `utils.CalculateMsgLength(message)` (supplied by the environment trace). -/
structure PulsarMessage where
  msgId : Nat
  payload : List Nat
  msgLength : Int
deriving DecidableEq, Repr

/-- One record of the accumulated `RecordBatch`. -/
structure FetchRecord where
  value : List Nat
  relativeOffset : Int
deriving DecidableEq, Repr

/-- Outcome of `readerMetadata.reader.Next(ctx)` in one iteration. -/
inductive ReadResult where
  /-- `Next` returned an error and `ctx.Err() != nil`: the wait deadline
  context expired — the loop breaks. -/
  | ctxExpired
  /-- `Next` returned a non-context error: logged, loop continues. -/
  | readError
  /-- `Next` delivered a message. -/
  | msg (m : PulsarMessage)
deriving DecidableEq, Repr

/-- The environment of one loop iteration: the two `time.Since(start)` samples
(milliseconds, at the loop head and at the post-append `MinFetchWaitMs`
check), the `HasFlowQuota` answer, and the reader outcome. -/
structure FetchEvent where
  elapsedTop : Int
  quota : Bool
  read : ReadResult
  elapsedAfter : Int
deriving DecidableEq, Repr

/-- Mutable state of the fetch loop.  `accepted` additionally records, in
order, the messages appended to the batch (it is determined by the loop and
exists so that the batch and the FIFO suffix can both be related to it; the
source keeps no such list). -/
structure FetchState where
  records : List FetchRecord
  byteLength : Int
  fistMessage : Bool
  baseOffset : Int
  pending : List MessageIdPair
  accepted : List PulsarMessage
deriving DecidableEq, Repr

/-- One iteration of the `OUT:` loop of `FetchPartition`.  `conv` is the
external `convOffset(message, continuousOffset)` mapping.  Returns the state
after the iteration and `true` when the loop breaks. -/
def fetchStep (maxFetchRecord minFetchWaitMs minBytes maxBytes maxWaitMs : Int)
    (conv : PulsarMessage → Int) (s : FetchState) (e : FetchEvent) :
    FetchState × Bool :=
  if e.elapsedTop ≥ maxWaitMs ∨ (s.records.length : Int) ≥ maxFetchRecord then
    (s, true)
  else if e.quota = false then (s, true)
  else
    match e.read with
    | ReadResult.ctxExpired => (s, true)
    | ReadResult.readError => (s, false)
    | ReadResult.msg m =>
      let byteLength := s.byteLength + m.msgLength
      let offset := conv m
      let fist := if s.fistMessage then false else s.fistMessage
      let base := if s.fistMessage then offset else s.baseOffset
      let s' : FetchState :=
        { records := s.records ++ [{ value := m.payload, relativeOffset := offset - base }]
          byteLength := byteLength
          fistMessage := fist
          baseOffset := base
          pending := s.pending ++ [{ messageId := m.msgId, offset := offset }]
          accepted := s.accepted ++ [m] }
      if byteLength > minBytes ∧ e.elapsedAfter ≥ minFetchWaitMs then (s', true)
      else if byteLength > maxBytes then (s', true)
      else (s', false)

/-- The fetch loop driven by a finite environment trace; the real loop always
terminates because `elapsedTop` eventually reaches the deadline, so a long
enough trace contains the breaking iteration. -/
def fetchLoop (maxFetchRecord minFetchWaitMs minBytes maxBytes maxWaitMs : Int)
    (conv : PulsarMessage → Int) : List FetchEvent → FetchState → FetchState
  | [], s => s
  | e :: es, s =>
    let r := fetchStep maxFetchRecord minFetchWaitMs minBytes maxBytes maxWaitMs conv s e
    if r.2 then r.1
    else fetchLoop maxFetchRecord minFetchWaitMs minBytes maxBytes maxWaitMs conv es r.1

/-- Loop state at entry: empty batch, `byteLength = 0`, `fistMessage = true`. -/
def initialFetchState : FetchState :=
  { records := [], byteLength := 0, fistMessage := true, baseOffset := 0,
    pending := [], accepted := [] }

/-- The loop-body invariant tying the batch and the pending FIFO to the list
of accepted messages, together with the record-count bound. -/
def fetchInv (mfr : Int) (conv : PulsarMessage → Int) (s : FetchState) : Prop :=
  s.pending = s.accepted.map (fun m => { messageId := m.msgId, offset := conv m }) ∧
  s.records = s.accepted.map
    (fun m => { value := m.payload, relativeOffset := conv m - s.baseOffset }) ∧
  (s.fistMessage = true → s.accepted = []) ∧
  (s.records.length : Int) ≤ mfr


/-! ## Produce (Broker.Produce) -/

/-- Connection-registry record created on successful SASL auth. -/
structure UserInfo where
  username : String
  clientId : String
deriving DecidableEq, Repr

structure ProducePartitionResp where
  errorCode : ErrorCode
  partitionId : Int
  offset : Int
  time : Int
  logStartOffset : Int
deriving DecidableEq, Repr

/-- External collaborators of `Produce`, summarised for one call: whether
`getProducer` (topic translation + lazy producer creation) succeeds, and the
offset `ConvertMsgId(id)` of the message id delivered to the last `SendAsync`
callback. -/
structure ProduceEnv where
  producerOk : Bool
  lastOffset : Int
deriving DecidableEq, Repr

/-- `Broker.Produce`.  The async publish fan-out/fan-in is summarised by
`env.lastOffset`.  Result `none` models a Go runtime fault: when
`userInfoManager[addr]` is absent, the error branch evaluates `user.username`
for its log message with `user == nil`, a nil-pointer dereference that occurs
before the `TOPIC_AUTHORIZATION_FAILED` response can be built. -/
def produce (env : ProduceEnv) (userInfoManager : List (String × UserInfo))
    (addr : String) (partition : Int) (_batch : List (List Nat)) :
    Option ProducePartitionResp :=
  match alistLookup userInfoManager addr with
  | none => none
  | some _ =>
    if env.producerOk = false then
      some { errorCode := ErrorCode.TOPIC_AUTHORIZATION_FAILED,
             partitionId := 0, offset := 0, time := 0, logStartOffset := 0 }
    else
      some { errorCode := ErrorCode.NONE, partitionId := partition,
             offset := env.lastOffset, time := -1, logStartOffset := 0 }

/-! ## Group coordinator (GroupCoordinatorStandalone)

The coordinator lives in its own namespace because the source's `Group`
record would otherwise collide with Mathlib's algebraic `Group`. -/

namespace Kafsar

inductive GroupStatus where
  | PreparingRebalance
  | CompletingRebalance
  | Stable
  | Dead
  | Empty
deriving DecidableEq, Repr

/-- `codec.GroupProtocol`: an assignor name plus opaque metadata bytes. -/
structure GroupProtocol where
  protocolName : String
  protocolMetadata : List Nat
deriving DecidableEq, Repr

/-- `memberMetadata` (Go zero values: empty bytes, counters `0`). -/
structure MemberMetadata where
  clientId : String
  memberId : String
  metadata : List Nat
  protocolType : String
  protocols : List (String × List Nat)
  assignment : List Nat
  joinGenerationId : Int
  syncGenerationId : Int
deriving DecidableEq, Repr

/-- The `Group` record of the standalone coordinator. -/
structure Group where
  groupId : String
  groupStatus : GroupStatus
  protocolType : String
  supportedProtocol : String
  groupProtocols : List (String × String)
  leader : String
  members : List (String × MemberMetadata)
  canRebalance : Bool
  sessionTimeoutMs : Int
  partitionedTopic : List String
  generationId : Int
deriving DecidableEq, Repr

/-- The `KafsarConfig` fields the coordinator consults. -/
structure KafsarConfig where
  groupMinSessionTimeoutMs : Int
  groupMaxSessionTimeoutMs : Int
  maxConsumersPerGroup : Int
  initialDelayedJoinMs : Int
  rebalanceTickMs : Int
deriving DecidableEq, Repr

/-- Coordinator state: the `groupManager` map keyed by `username + groupId`. -/
structure GroupCoordinatorStandalone where
  groupManager : List (String × Group)
deriving DecidableEq, Repr

def EmptyMemberId : String := ""

structure JoinGroupResp where
  errorCode : ErrorCode
  generationId : Int
  protocolType : String
  protocolName : String
  leaderId : String
  memberId : String
  /-- `codec.Member` entries `(MemberId, Metadata)`; `GroupInstanceId` is nil. -/
  members : List (String × List Nat)
deriving DecidableEq, Repr

/-- An error `JoinGroupResp` as the source builds it (other fields zero). -/
def joinErrorResp (memberId : String) (code : ErrorCode) : JoinGroupResp :=
  { errorCode := code, generationId := 0, protocolType := "", protocolName := "",
    leaderId := "", memberId := memberId, members := [] }

structure SyncGroupResp where
  errorCode : ErrorCode
  memberAssignment : List Nat
deriving DecidableEq, Repr

structure GroupAssignment where
  memberId : String
  memberAssignment : List Nat
deriving DecidableEq, Repr

structure LeaveGroupMember where
  memberId : String
deriving DecidableEq, Repr

structure LeaveGroupResp where
  errorCode : ErrorCode
  members : List LeaveGroupMember
deriving DecidableEq, Repr

structure HeartbeatResp where
  errorCode : ErrorCode
deriving DecidableEq, Repr

/-- `joinGroupParamsCheck`: `some code` is the error case (the Go error
object plus code), `none` means the parameters passed.  The returned
`memberId` is always the input, unchanged. -/
def joinGroupParamsCheck (config : KafsarConfig) (groupId : String)
    (sessionTimeoutMs : Int) : Option ErrorCode :=
  if groupId = "" then some ErrorCode.INVALID_GROUP_ID
  else if sessionTimeoutMs < config.groupMinSessionTimeoutMs ∨
      sessionTimeoutMs > config.groupMaxSessionTimeoutMs then
    some ErrorCode.INVALID_SESSION_TIMEOUT
  else none

/-- `supportsProtocols` — a true-returning stub in the source (TODO there). -/
def supportsProtocols (_groupProtocols : List (String × String))
    (_memberProtocols : List GroupProtocol) : Bool := true

/-- `matchProtocols` — a true-returning stub in the source. -/
def matchProtocols (_groupProtocols : List (String × String))
    (_memberProtocols : List GroupProtocol) : Bool := true

/-- `joinGroupProtocolCheck` (the two sequential status tests are mutually
exclusive, hence the if/else). -/
def joinGroupProtocolCheck (group : Group) (protocolType : String)
    (protocols : List GroupProtocol) : Option ErrorCode :=
  if group.groupStatus ≠ GroupStatus.Empty then
    if group.protocolType ≠ protocolType then
      some ErrorCode.INCONSISTENT_GROUP_PROTOCOL
    else if supportsProtocols group.groupProtocols protocols = false then
      some ErrorCode.INCONSISTENT_GROUP_PROTOCOL
    else none
  else
    if protocolType = "" then some ErrorCode.INCONSISTENT_GROUP_PROTOCOL
    else if protocols.isEmpty then some ErrorCode.INCONSISTENT_GROUP_PROTOCOL
    else none

def checkMemberExist (group : Group) (memberId : String) : Bool :=
  (alistLookup group.members memberId).isSome

def deleteMember (group : Group) (memberId : String) : Group :=
  { group with members := alistErase group.members memberId }

/-- `vote`: `supportedProtocol := protocols[0].ProtocolName`.  The source
indexes `protocols[0]`, which would panic on an empty slice; every call site
runs under `groupStatus == Empty` after `joinGroupProtocolCheck` has rejected
empty `protocols`, so the `[]` case is unreachable and modelled as identity. -/
def vote (group : Group) (protocols : List GroupProtocol) : Group :=
  match protocols with
  | [] => group
  | p :: _ => { group with supportedProtocol := p.protocolName }

/-- `prepareRebalance`: status := PreparingRebalance. -/
def prepareRebalance (group : Group) : Group :=
  { group with groupStatus := GroupStatus.PreparingRebalance }

/-- `doRebalance` under the sequential collapse.  With the latch free the
caller drives the delay (a no-op sleep), moves the group to
CompletingRebalance and bumps the generation; the latch is restored before
returning.  With the latch held the caller polls
`awaitingRebalance(CompletingRebalance)`, whose first check — status just set
to PreparingRebalance — succeeds only via the `membersLen == 0` escape, and
otherwise times out (`false`). -/
def doRebalance (group : Group) : Group × Bool :=
  let group := prepareRebalance group
  if group.canRebalance then
    ({ group with
        groupStatus := GroupStatus.CompletingRebalance
        generationId := group.generationId + 1 }, true)
  else
    (group, group.members.isEmpty)

/-- `addMemberAndRebalance`: generate the member id if empty, build the
protocol map, elect the assignor when the group is Empty, insert the member
and drive the rebalance.  `uuid` stands for `uuid.New().String()`. -/
def addMemberAndRebalance (group : Group) (clientId memberId protocolType : String)
    (protocols : List GroupProtocol) (uuid : String) : String × Group × Bool :=
  let memberId := if memberId = EmptyMemberId then clientId ++ "-" ++ uuid else memberId
  let protocolMap := protocols.foldl
    (fun acc p => alistInsert acc p.protocolName p.protocolMetadata) []
  let group := if group.groupStatus = GroupStatus.Empty then vote group protocols else group
  let member : MemberMetadata :=
    { clientId := clientId, memberId := memberId,
      metadata := (alistLookup protocolMap group.supportedProtocol).getD [],
      protocolType := protocolType, protocols := protocolMap,
      assignment := [], joinGenerationId := 0, syncGenerationId := 0 }
  let group := { group with members := alistInsert group.members memberId member }
  let r := doRebalance group
  (memberId, r.1, r.2)

/-- `updateMemberAndRebalance` does not update the stored member; it only
rebalances (the source ignores its protocol arguments). -/
def updateMemberAndRebalance (group : Group) (_clientId _memberId _protocolType : String)
    (_protocols : List GroupProtocol) : Group × Bool :=
  doRebalance group

/-- `addNewMemberAndReBalance` under the sequential collapse: with members
present and the group not Stable, `awaitingRebalance(Stable)` finds neither
`status == Stable` nor an empty member map and times out, so the new joiner
is rejected without mutation; otherwise the member is added and rebalanced. -/
def addNewMemberAndReBalance (group : Group) (clientId memberId protocolType : String)
    (protocols : List GroupProtocol) (uuid : String) : String × Group × Bool :=
  if group.members.length > 0 ∧ group.groupStatus ≠ GroupStatus.Stable then
    (memberId, group, false)
  else
    addMemberAndRebalance group clientId memberId protocolType protocols uuid

/-- `checkJoinMemberGenerationId`: every member's `joinGenerationId` equals
the group's generation. -/
def checkJoinMemberGenerationId (group : Group) : Bool :=
  group.members.all fun p => p.2.joinGenerationId == group.generationId

/-- `awaitingJoin` under the sequential collapse.  The loop's only write is
the caller's own `joinGenerationId`; after that write the barrier check is
stable, so the loop succeeds iff the check passes (setting the status to
CompletingRebalance) and otherwise times out.  A missing caller entry is the
source's "cur member missing" error. -/
def awaitingJoin (group : Group) (memberId : String) : Group × Bool :=
  match alistLookup group.members memberId with
  | none => (group, false)
  | some m =>
    let m := { m with joinGenerationId := group.generationId }
    let group := { group with members := alistInsert group.members memberId m }
    if checkJoinMemberGenerationId group then
      ({ group with groupStatus := GroupStatus.CompletingRebalance }, true)
    else (group, false)

/-- `getLeaderMembers`: claim leadership if unset; the leader receives the
full member list, others an empty list. -/
def getLeaderMembers (group : Group) (memberId : String) :
    Group × List (String × List Nat) :=
  let group := if group.leader = "" then { group with leader := memberId } else group
  if group.leader = memberId then
    (group, group.members.map fun p => (p.2.memberId, p.2.metadata))
  else (group, [])

/-- The common tail of the PreparingRebalance and Empty/Stable join branches:
await the join barrier; on success compute the member list and answer NONE,
on timeout evict the caller when it joined with an empty member id. -/
def joinAwaitPhase (group : Group) (memberId : String) (isNewMember : Bool) :
    Group × JoinGroupResp :=
  let r := awaitingJoin group memberId
  let group := r.1
  if r.2 then
    let lm := getLeaderMembers group memberId
    let group := lm.1
    (group,
      { errorCode := ErrorCode.NONE, generationId := group.generationId,
        protocolType := group.protocolType, protocolName := group.supportedProtocol,
        leaderId := group.leader, memberId := memberId, members := lm.2 })
  else
    let group := if isNewMember then deleteMember group memberId else group
    (group, joinErrorResp memberId ErrorCode.COORDINATOR_LOAD_IN_PROGRESS)

/-- The CompletingRebalance join branch computes the leader member list
*before* awaiting the join barrier. -/
def joinCompletingTail (group : Group) (memberId : String) (isNewMember : Bool) :
    Group × JoinGroupResp :=
  let lm := getLeaderMembers group memberId
  let group := lm.1
  let r := awaitingJoin group memberId
  let group := r.1
  if r.2 then
    (group,
      { errorCode := ErrorCode.NONE, generationId := group.generationId,
        protocolType := group.protocolType, protocolName := group.supportedProtocol,
        leaderId := group.leader, memberId := memberId, members := lm.2 })
  else
    let group := if isNewMember then deleteMember group memberId else group
    (group, joinErrorResp memberId ErrorCode.COORDINATOR_LOAD_IN_PROGRESS)

/-- The `groupStatus == PreparingRebalance` branch of HandleJoinGroup. -/
def joinPreparing (group : Group) (memberId clientId protocolType : String)
    (protocols : List GroupProtocol) (uuid : String) : Group × JoinGroupResp :=
  let isNewMember := memberId = EmptyMemberId
  if isNewMember ∨ checkMemberExist group memberId = false then
    let a := addNewMemberAndReBalance group clientId memberId protocolType protocols uuid
    if a.2.2 = false then
      (a.2.1, joinErrorResp a.1 ErrorCode.COORDINATOR_LOAD_IN_PROGRESS)
    else joinAwaitPhase a.2.1 a.1 isNewMember
  else joinAwaitPhase group memberId isNewMember

/-- The `groupStatus == CompletingRebalance` branch of HandleJoinGroup. -/
def joinCompleting (group : Group) (memberId clientId protocolType : String)
    (protocols : List GroupProtocol) (uuid : String) : Group × JoinGroupResp :=
  let isNewMember := memberId = EmptyMemberId
  if isNewMember ∨ checkMemberExist group memberId = false then
    let a := addNewMemberAndReBalance group clientId memberId protocolType protocols uuid
    if a.2.2 = false then
      (a.2.1, joinErrorResp a.1 ErrorCode.COORDINATOR_LOAD_IN_PROGRESS)
    else joinCompletingTail a.2.1 a.1 isNewMember
  else
    if matchProtocols group.groupProtocols protocols = false then
      let u := updateMemberAndRebalance group clientId memberId protocolType protocols
      if u.2 = false then
        (u.1, joinErrorResp memberId ErrorCode.COORDINATOR_LOAD_IN_PROGRESS)
      else joinCompletingTail u.1 memberId isNewMember
    else joinCompletingTail group memberId isNewMember

/-- The `groupStatus == Empty || groupStatus == Stable` branch. -/
def joinEmptyStable (group : Group) (memberId clientId protocolType : String)
    (protocols : List GroupProtocol) (uuid : String) : Group × JoinGroupResp :=
  let isNewMember := memberId = EmptyMemberId
  if isNewMember ∨ checkMemberExist group memberId = false then
    let a := addNewMemberAndReBalance group clientId memberId protocolType protocols uuid
    if a.2.2 = false then
      (a.2.1, joinErrorResp a.1 ErrorCode.COORDINATOR_LOAD_IN_PROGRESS)
    else joinAwaitPhase a.2.1 a.1 isNewMember
  else
    if group.leader = memberId ∨ matchProtocols group.groupProtocols protocols = false then
      let u := updateMemberAndRebalance group clientId memberId protocolType protocols
      if u.2 = false then
        (u.1, joinErrorResp memberId ErrorCode.COORDINATOR_LOAD_IN_PROGRESS)
      else joinAwaitPhase u.1 memberId isNewMember
    else joinAwaitPhase group memberId isNewMember

/-- HandleJoinGroup after group lookup-or-create: protocol check, capacity
check, dead check, then the status dispatch (the final fall-through mirrors
the source's closing UNKNOWN_SERVER_ERROR return). -/
def joinGroupCore (config : KafsarConfig) (group : Group)
    (memberId clientId protocolType : String) (protocols : List GroupProtocol)
    (uuid : String) : Group × JoinGroupResp :=
  match joinGroupProtocolCheck group protocolType protocols with
  | some code => (group, joinErrorResp memberId code)
  | none =>
    if config.maxConsumersPerGroup > 0 ∧
        (group.members.length : Int) ≥ config.maxConsumersPerGroup then
      (group, joinErrorResp memberId ErrorCode.GROUP_MAX_SIZE_REACHED)
    else if group.groupStatus = GroupStatus.Dead then
      (group, joinErrorResp memberId ErrorCode.UNKNOWN_MEMBER_ID)
    else if group.groupStatus = GroupStatus.PreparingRebalance then
      joinPreparing group memberId clientId protocolType protocols uuid
    else if group.groupStatus = GroupStatus.CompletingRebalance then
      joinCompleting group memberId clientId protocolType protocols uuid
    else if group.groupStatus = GroupStatus.Empty ∨
        group.groupStatus = GroupStatus.Stable then
      joinEmptyStable group memberId clientId protocolType protocols uuid
    else
      (group, joinErrorResp memberId ErrorCode.UNKNOWN_SERVER_ERROR)

/-- A freshly created group (Go zero values for the unlisted fields). -/
def newGroup (groupId protocolType : String) (sessionTimeoutMs : Int) : Group :=
  { groupId := groupId, groupStatus := GroupStatus.Empty,
    protocolType := protocolType, supportedProtocol := "", groupProtocols := [],
    leader := "", members := [], canRebalance := true,
    sessionTimeoutMs := sessionTimeoutMs, partitionedTopic := [],
    generationId := 0 }

/-- `HandleJoinGroup`: parameter check, group lookup-or-create under the
registry lock, then `joinGroupCore`; the mutated group is visible in the map
(the source mutates it through a shared pointer). -/
def handleJoinGroup (config : KafsarConfig) (st : GroupCoordinatorStandalone)
    (username groupId memberId clientId protocolType : String)
    (sessionTimeoutMs : Int) (protocols : List GroupProtocol) (uuid : String) :
    GroupCoordinatorStandalone × JoinGroupResp :=
  match joinGroupParamsCheck config groupId sessionTimeoutMs with
  | some code => (st, joinErrorResp memberId code)
  | none =>
    let key := username ++ groupId
    let group := match alistLookup st.groupManager key with
      | some g => g
      | none => newGroup groupId protocolType sessionTimeoutMs
    let st : GroupCoordinatorStandalone :=
      { groupManager := alistInsert st.groupManager key group }
    let r := joinGroupCore config group memberId clientId protocolType protocols uuid
    (({ groupManager := alistInsert st.groupManager key r.1 } :
        GroupCoordinatorStandalone), r.2)

/-- `syncGroupParamsCheck`. -/
def syncGroupParamsCheck (groupId memberId : String) : Option ErrorCode :=
  if groupId = "" then some ErrorCode.INVALID_GROUP_ID
  else if memberId = "" then some ErrorCode.MEMBER_ID_REQUIRED
  else none

/-- `checkSyncMemberGenerationId`: every member has
`syncGenerationId == joinGenerationId`. -/
def checkSyncMemberGenerationId (group : Group) : Bool :=
  group.members.all fun p => p.2.syncGenerationId == p.2.joinGenerationId

/-- The leader's assignment-storing loop:
`group.members[assignment.MemberId].assignment = assignment.MemberAssignment`.
A lookup of an id that is not a member yields the map's zero value `nil`, and
the field write dereferences that nil pointer — a runtime fault, `none`. -/
def storeAssignments (members : List (String × MemberMetadata)) :
    List GroupAssignment → Option (List (String × MemberMetadata))
  | [] => some members
  | a :: rest =>
    match alistLookup members a.memberId with
    | none => none
    | some m =>
      storeAssignments
        (alistInsert members a.memberId { m with assignment := a.memberAssignment }) rest

/-- The CompletingRebalance branch of HandleSyncGroup: the leader stores the
assignments (fault possible), the caller marks itself synced, awaits the sync
barrier (sequential collapse: it succeeds iff the barrier already holds after
the caller's own write), the leader moves the group to Stable whether or not
the wait timed out, and the caller's current assignment is returned —
`REBALANCE_IN_PROGRESS` on timeout, `NONE` otherwise. -/
def syncCompleting (group : Group) (memberId : String)
    (groupAssignments : List GroupAssignment) : Option (Group × SyncGroupResp) :=
  match (if group.leader = memberId
         then storeAssignments group.members groupAssignments
         else some group.members) with
  | none => none
  | some members1 =>
    let members2 := match alistLookup members1 memberId with
      | some m =>
        alistInsert members1 memberId { m with syncGenerationId := m.joinGenerationId }
      | none => members1
    let group := { group with members := members2 }
    let syncOk := checkSyncMemberGenerationId group
    let group := if group.leader = memberId
      then { group with groupStatus := GroupStatus.Stable } else group
    let curAssignment := ((alistLookup group.members memberId).map
      (fun m => m.assignment)).getD []
    if syncOk then
      some (group, { errorCode := ErrorCode.NONE, memberAssignment := curAssignment })
    else
      some (group, { errorCode := ErrorCode.REBALANCE_IN_PROGRESS,
                     memberAssignment := curAssignment })

/-- `HandleSyncGroup`.  `none` models the nil-pointer fault of the
assignment-storing loop; every other path returns a response.  The group's
mutations are visible in the coordinator map. -/
def handleSyncGroup (st : GroupCoordinatorStandalone)
    (username groupId memberId : String) (_generation : Int)
    (groupAssignments : List GroupAssignment) :
    Option (GroupCoordinatorStandalone × SyncGroupResp) :=
  match syncGroupParamsCheck groupId memberId with
  | some code => some (st, { errorCode := code, memberAssignment := [] })
  | none =>
    match alistLookup st.groupManager (username ++ groupId) with
    | none =>
      some (st, { errorCode := ErrorCode.INVALID_GROUP_ID, memberAssignment := [] })
    | some group =>
      match alistLookup group.members memberId with
      | none =>
        some (st, { errorCode := ErrorCode.UNKNOWN_MEMBER_ID, memberAssignment := [] })
      | some curMember =>
        if group.groupStatus = GroupStatus.Empty ∨
            group.groupStatus = GroupStatus.Dead then
          some (st, { errorCode := ErrorCode.UNKNOWN_MEMBER_ID, memberAssignment := [] })
        else if group.groupStatus = GroupStatus.PreparingRebalance then
          some (st, { errorCode := ErrorCode.REBALANCE_IN_PROGRESS,
                      memberAssignment := [] })
        else if group.groupStatus = GroupStatus.CompletingRebalance then
          match syncCompleting group memberId groupAssignments with
          | none => none
          | some r =>
            some (({ groupManager :=
                alistInsert st.groupManager (username ++ groupId) r.1 } :
                  GroupCoordinatorStandalone), r.2)
        else if group.groupStatus = GroupStatus.Stable then
          some (st, { errorCode := ErrorCode.NONE,
                      memberAssignment := curMember.assignment })
        else
          some (st, { errorCode := ErrorCode.UNKNOWN_SERVER_ERROR,
                      memberAssignment := [] })

/-- The member loop of HandleLeaveGroup: clear the leader when the listed
member is the current leader, then delete it. -/
def leaveLoop : Group → List LeaveGroupMember → Group
  | group, [] => group
  | group, m :: rest =>
    let group := if m.memberId = group.leader then { group with leader := "" } else group
    leaveLoop (deleteMember group m.memberId) rest

/-- `HandleLeaveGroup`. -/
def handleLeaveGroup (st : GroupCoordinatorStandalone) (username groupId : String)
    (members : List LeaveGroupMember) : GroupCoordinatorStandalone × LeaveGroupResp :=
  if groupId = "" then
    (st, { errorCode := ErrorCode.INVALID_GROUP_ID, members := [] })
  else
    match alistLookup st.groupManager (username ++ groupId) with
    | none => (st, { errorCode := ErrorCode.INVALID_GROUP_ID, members := [] })
    | some group =>
      let group := leaveLoop group members
      let group := { group with generationId := group.generationId + 1 }
      let group := if group.members.isEmpty
        then { group with groupStatus := GroupStatus.Empty }
        else { group with groupStatus := GroupStatus.PreparingRebalance }
      (({ groupManager := alistInsert st.groupManager (username ++ groupId) group } :
          GroupCoordinatorStandalone),
       { errorCode := ErrorCode.NONE, members := members })

/-- `HandleHeartBeat` (read-only on the coordinator state). -/
def handleHeartBeat (st : GroupCoordinatorStandalone)
    (username groupId memberId : String) : HeartbeatResp :=
  if groupId = "" then { errorCode := ErrorCode.INVALID_GROUP_ID }
  else
    match alistLookup st.groupManager (username ++ groupId) with
    | none => { errorCode := ErrorCode.REBALANCE_IN_PROGRESS }
    | some group =>
      match alistLookup group.members memberId with
      | none => { errorCode := ErrorCode.REBALANCE_IN_PROGRESS }
      | some _ =>
        if group.groupStatus = GroupStatus.PreparingRebalance ∨
            group.groupStatus = GroupStatus.CompletingRebalance ∨
            group.groupStatus = GroupStatus.Dead then
          { errorCode := ErrorCode.REBALANCE_IN_PROGRESS }
        else { errorCode := ErrorCode.NONE }

/-- One coordinator operation with all its client-supplied inputs (plus the
fresh uuid a JoinGroup may consume). -/
inductive CoordinatorOp where
  | join (username groupId memberId clientId protocolType : String)
      (sessionTimeoutMs : Int) (protocols : List GroupProtocol) (uuid : String)
  | sync (username groupId memberId : String) (generation : Int)
      (assignments : List GroupAssignment)
  | heartbeat (username groupId memberId : String)
  | leave (username groupId : String) (members : List LeaveGroupMember)

/-- Apply one operation; `none` is a run killed by a runtime fault. -/
def applyOp (config : KafsarConfig) (st : GroupCoordinatorStandalone) :
    CoordinatorOp → Option GroupCoordinatorStandalone
  | CoordinatorOp.join u g m c p t ps uu =>
    some (handleJoinGroup config st u g m c p t ps uu).1
  | CoordinatorOp.sync u g m gen as => (handleSyncGroup st u g m gen as).map (fun r => r.1)
  | CoordinatorOp.heartbeat _ _ _ => some st
  | CoordinatorOp.leave u g ms => some (handleLeaveGroup st u g ms).1

def runOps (config : KafsarConfig) (st : GroupCoordinatorStandalone) :
    List CoordinatorOp → Option GroupCoordinatorStandalone
  | [] => some st
  | op :: rest =>
    match applyOp config st op with
    | none => none
    | some st1 => runOps config st1 rest

/-- The coordinator as `NewGroupCoordinatorStandalone` builds it. -/
def initialCoordinator : GroupCoordinatorStandalone := { groupManager := [] }

/-! ### Concrete scenario used by witnesses and counterexamples -/

def demoConfig : KafsarConfig :=
  { groupMinSessionTimeoutMs := 1, groupMaxSessionTimeoutMs := 1000,
    maxConsumersPerGroup := 0, initialDelayedJoinMs := 3000, rebalanceTickMs := 50 }

def demoProtocols : List GroupProtocol :=
  [{ protocolName := "range", protocolMetadata := [1] }]

/-- Member "A": joined and synced at generation 1. -/
def demoMemberA : MemberMetadata :=
  { clientId := "ca", memberId := "A", metadata := [1], protocolType := "consumer",
    protocols := [("range", [1])], assignment := [7],
    joinGenerationId := 1, syncGenerationId := 1 }

/-- A Stable one-member group at generation 1 led by "A". -/
def demoStableGroup : Group :=
  { groupId := "g", groupStatus := GroupStatus.Stable, protocolType := "consumer",
    supportedProtocol := "range", groupProtocols := [], leader := "A",
    members := [("A", demoMemberA)], canRebalance := true, sessionTimeoutMs := 100,
    partitionedTopic := [], generationId := 1 }

def demoState : GroupCoordinatorStandalone :=
  { groupManager := [("ug", demoStableGroup)] }

/-- The same group caught in CompletingRebalance. -/
def demoCRGroup : Group :=
  { demoStableGroup with groupStatus := GroupStatus.CompletingRebalance }

def demoCRState : GroupCoordinatorStandalone :=
  { groupManager := [("ug", demoCRGroup)] }

/-- A run that creates a group and then empties it again. -/
def demoOps : List CoordinatorOp :=
  [CoordinatorOp.join "u" "g" "" "c" "consumer" 100 demoProtocols "u1",
   CoordinatorOp.leave "u" "g" [{ memberId := "c-u1" }]]

def demoFinal : GroupCoordinatorStandalone :=
  (runOps demoConfig initialCoordinator demoOps).getD initialCoordinator

def demoFinalGroup : Group :=
  (alistLookup demoFinal.groupManager "ug").getD (newGroup "" "" 0)

end Kafsar

/-- Witness trace for the fetch loop: two accepted messages, then the wait
deadline context expires. -/
def demoConv : PulsarMessage → Int := fun m => (m.msgId : Int)

def demoEvents : List FetchEvent :=
  [{ elapsedTop := 0, quota := true,
     read := ReadResult.msg { msgId := 4, payload := [1, 2], msgLength := 2 },
     elapsedAfter := 0 },
   { elapsedTop := 1, quota := true,
     read := ReadResult.msg { msgId := 6, payload := [3], msgLength := 1 },
     elapsedAfter := 1 },
   { elapsedTop := 9, quota := true, read := ReadResult.ctxExpired,
     elapsedAfter := 9 }]

/-! # Theorems -/

theorem alistLookup_insert_self {α : Type} (l : List (String × α)) (k : String) (v : α) :
    alistLookup (alistInsert l k v) k = some v := by
  simp [alistInsert, alistLookup]

theorem alistLookup_filter_ne {α : Type} (l : List (String × α)) (k k' : String)
    (h : k' ≠ k) : alistLookup (l.filter (fun p => p.1 ≠ k)) k' = alistLookup l k' := by
  induction l with
  | nil => rfl
  | cons p rest ih =>
    simp only [ne_eq, decide_not] at ih ⊢
    by_cases hp : p.1 = k
    · have h1 : ¬ p.1 = k' := by rw [hp]; exact fun e => h e.symm
      have h2 : ¬ k = k' := fun e => h e.symm
      simp [List.filter_cons, alistLookup, hp, h1, h2, ih]
    · by_cases hk' : p.1 = k'
      · simp [List.filter_cons, alistLookup, hp, hk', h]
      · simp [List.filter_cons, alistLookup, hp, hk', ih]

theorem alistLookup_insert_ne {α : Type} (l : List (String × α)) (k k' : String) (v : α)
    (h : k' ≠ k) : alistLookup (alistInsert l k v) k' = alistLookup l k' := by
  simp only [alistInsert, alistLookup]
  rw [if_neg (fun e => h e.symm)]
  exact alistLookup_filter_ne l k k' h

theorem alistLookup_erase_self {α : Type} (l : List (String × α)) (k : String) :
    alistLookup (alistErase l k) k = none := by
  induction l with
  | nil => rfl
  | cons p rest ih =>
    by_cases hp : p.1 = k
    · simpa [alistErase, hp] using ih
    · simpa [alistErase, alistLookup, hp] using ih

theorem offsetCommitLoop_eq_spec_aux (reqOffset : Int) (length : Nat) :
    ∀ (l : List MessageIdPair) (i : Nat), i + l.length = length →
      offsetCommitLoop reqOffset length i l = offsetCommitSpec reqOffset l := by
  intro l
  induction l with
  | nil =>
    intro i _
    simp [offsetCommitLoop, offsetCommitSpec]
  | cons front rest ih =>
    intro i hi
    have hlt : i < length := by
      simp only [List.length_cons] at hi
      omega
    by_cases heq : front.offset = reqOffset
    · have : ¬ (front.offset < reqOffset) := by omega
      simp [offsetCommitLoop, offsetCommitSpec, hlt, heq, this, List.dropWhile_cons]
    · by_cases hltoff : front.offset < reqOffset
      · have hne : front.offset ≠ reqOffset := heq
        by_cases hrest : rest = []
        · subst hrest
          have hlast : i = length - 1 := by
            simp only [List.length_cons, List.length_nil] at hi
            omega
          have hcond : front.offset = reqOffset ∨
              (front.offset < reqOffset ∧ i = length - 1) := Or.inr ⟨hltoff, hlast⟩
          simp only [offsetCommitLoop, if_pos hlt, if_pos hcond]
          simp [offsetCommitSpec, List.dropWhile_cons, hltoff, List.getLast?]
        · have hnotlast : i ≠ length - 1 := by
            simp only [List.length_cons] at hi
            have : rest.length ≠ 0 := fun h => hrest (List.length_eq_zero.mp h)
            omega
          have hng : ¬ (front.offset > reqOffset) := by omega
          have hrec := ih (i + 1) (by simp only [List.length_cons] at hi; omega)
          have hcond : ¬ (front.offset = reqOffset ∨
              (front.offset < reqOffset ∧ i = length - 1)) := by
            push_neg
            exact ⟨hne, fun _ => hnotlast⟩
          simp only [offsetCommitLoop, if_pos hlt, if_neg hcond, if_neg hng, hrec]
          obtain ⟨r, rs, rfl⟩ := List.exists_cons_of_ne_nil hrest
          have hdrop : List.dropWhile (fun p => decide (p.offset < reqOffset))
                (front :: r :: rs)
              = List.dropWhile (fun p => decide (p.offset < reqOffset)) (r :: rs) := by
            rw [List.dropWhile_cons]
            simp [hltoff]
          simp only [offsetCommitSpec, hdrop, List.getLast?_cons_cons]
      · have hgt : front.offset > reqOffset := by omega
        have hcond : ¬ (front.offset = reqOffset ∨
            (front.offset < reqOffset ∧ i = length - 1)) := by
          push_neg
          exact ⟨heq, fun h => absurd h hltoff⟩
        simp only [offsetCommitLoop, if_pos hlt, if_neg hcond, if_pos hgt]
        simp [offsetCommitSpec, List.dropWhile_cons, hltoff, heq]

theorem offsetCommitLoop_eq_spec (reqOffset : Int) (l : List MessageIdPair) :
    offsetCommitLoop reqOffset l.length 0 l = offsetCommitSpec reqOffset l :=
  offsetCommitLoop_eq_spec_aux reqOffset l.length l 0 (by omega)

theorem alistLookup_insert_isSome {α : Type} (l : List (String × α)) (k k' : String)
    (v : α) (h : (alistLookup l k').isSome = true) :
    (alistLookup (alistInsert l k v) k').isSome = true := by
  by_cases hk : k' = k
  · subst hk
    rw [alistLookup_insert_self]
    rfl
  · rw [alistLookup_insert_ne l k k' v hk]
    exact h

theorem alistLookup_mem {α : Type} (l : List (String × α)) (k : String)
    (h : (alistLookup l k).isSome = true) : ∃ p ∈ l, p.1 = k := by
  induction l with
  | nil => simp [alistLookup] at h
  | cons p rest ih =>
    by_cases hp : p.1 = k
    · exact ⟨p, List.mem_cons_self p rest, hp⟩
    · rw [alistLookup, if_neg hp] at h
      obtain ⟨q, hq, hqk⟩ := ih h
      exact ⟨q, List.mem_cons_of_mem p hq, hqk⟩

/-- C1: OffsetCommit on an existing reader with target offset O walks the
pendingMessageIds FIFO from the head, silently dropping entries strictly
below O that are not last, committing (through the Offset Manager) and
removing exactly the first entry equal to O — or below O while final —,
stopping at the first entry strictly above O and leaving it and all later
entries in place, and answers ErrorCode NONE. -/
theorem offset_commit_walk (l : List MessageIdPair) (partitionId reqOffset : Int) :
    (offsetCommitPartition l partitionId reqOffset).1 = (offsetCommitSpec reqOffset l).1 ∧
    (offsetCommitPartition l partitionId reqOffset).2.1 = (offsetCommitSpec reqOffset l).2 ∧
    (offsetCommitPartition l partitionId reqOffset).2.2.errorCode = ErrorCode.NONE := by
  refine ⟨?_, ?_, rfl⟩ <;> simp only [offsetCommitPartition, offsetCommitLoop_eq_spec]

/-- C9: the claim says a Produce call from an address with no authenticated
user completes without runtime fault and answers TOPIC_AUTHORIZATION_FAILED.
The source's error branch, however, formats `user.username` for its log
message while `user` is the map's nil zero value, so the call faults before
building the response; the model evaluates to the fault value `none` at the
failing input. -/
theorem produce_missing_user_faults :
    produce { producerOk := true, lastOffset := 0 } [] "1.2.3.4:9092" 0 [[1, 2]]
      = none := rfl

/-- The state after accepting message `m` (the append half of the loop body). -/
theorem fetchStep_accept_def (mfr mfw minB maxB maxW : Int) (conv : PulsarMessage → Int)
    (s : FetchState) (e : FetchEvent) (m : PulsarMessage)
    (h1 : ¬ (e.elapsedTop ≥ maxW ∨ (s.records.length : Int) ≥ mfr))
    (h2 : ¬ e.quota = false) (h3 : e.read = ReadResult.msg m) :
    (fetchStep mfr mfw minB maxB maxW conv s e).1 =
      { records := s.records ++
          [{ value := m.payload,
             relativeOffset := conv m - (if s.fistMessage then conv m else s.baseOffset) }]
        byteLength := s.byteLength + m.msgLength
        fistMessage := if s.fistMessage then false else s.fistMessage
        baseOffset := if s.fistMessage then conv m else s.baseOffset
        pending := s.pending ++ [{ messageId := m.msgId, offset := conv m }]
        accepted := s.accepted ++ [m] } := by
  unfold fetchStep
  rw [if_neg h1, if_neg h2, h3]
  dsimp only
  by_cases h4 : s.byteLength + m.msgLength > minB ∧ e.elapsedAfter ≥ mfw
  · rw [if_pos h4]
  · rw [if_neg h4]
    by_cases h5 : s.byteLength + m.msgLength > maxB
    · rw [if_pos h5]
    · rw [if_neg h5]

theorem fetchStep_inv (mfr mfw minB maxB maxW : Int) (conv : PulsarMessage → Int)
    (s : FetchState) (e : FetchEvent) (hs : fetchInv mfr conv s) :
    fetchInv mfr conv (fetchStep mfr mfw minB maxB maxW conv s e).1 := by
  obtain ⟨hp, hr, hf, hn⟩ := hs
  by_cases h1 : e.elapsedTop ≥ maxW ∨ (s.records.length : Int) ≥ mfr
  · unfold fetchStep
    rw [if_pos h1]
    exact ⟨hp, hr, hf, hn⟩
  · by_cases h2 : e.quota = false
    · unfold fetchStep
      rw [if_neg h1, if_pos h2]
      exact ⟨hp, hr, hf, hn⟩
    · cases hread : e.read with
      | ctxExpired =>
        unfold fetchStep
        rw [if_neg h1, if_neg h2, hread]
        exact ⟨hp, hr, hf, hn⟩
      | readError =>
        unfold fetchStep
        rw [if_neg h1, if_neg h2, hread]
        exact ⟨hp, hr, hf, hn⟩
      | msg m =>
        rw [fetchStep_accept_def mfr mfw minB maxB maxW conv s e m h1 h2 hread]
        have hcount : (s.records.length : Int) < mfr := by
          push_neg at h1
          exact h1.2
        by_cases hfm : s.fistMessage = true
        · have hacc : s.accepted = [] := hf hfm
          have hrec : s.records = [] := by rw [hr, hacc]; rfl
          refine ⟨?_, ?_, ?_, ?_⟩
          · simp [hfm, hp]
          · simp [hfm, hrec, hacc]
          · intro hcontra
            simp [hfm] at hcontra
          · simp [hrec, hacc]
            omega
        · have hfm' : s.fistMessage = false := by
            cases hb : s.fistMessage
            · rfl
            · exact absurd hb hfm
          refine ⟨?_, ?_, ?_, ?_⟩
          · simp [hfm', hp]
          · simp [hfm', hr]
          · intro hcontra
            simp [hfm'] at hcontra
          · simp only [List.length_append, List.length_singleton]
            push_cast
            omega

theorem fetchLoop_inv (mfr mfw minB maxB maxW : Int) (conv : PulsarMessage → Int)
    (events : List FetchEvent) (s : FetchState) (hs : fetchInv mfr conv s) :
    fetchInv mfr conv (fetchLoop mfr mfw minB maxB maxW conv events s) := by
  induction events generalizing s with
  | nil => exact hs
  | cons e es ih =>
    unfold fetchLoop
    have hstep := fetchStep_inv mfr mfw minB maxB maxW conv s e hs
    by_cases hb : (fetchStep mfr mfw minB maxB maxW conv s e).2 = true
    · rw [if_pos hb]
      exact hstep
    · rw [if_neg hb]
      exact ih _ hstep

/-- C8: (exit conditions) one fetch iteration breaks the loop exactly when
the wait deadline has elapsed or the batch already holds MaxFetchRecord
records, or the flow quota is denied, or the deadline context expires inside
the read, or — after accepting a message — the accumulated bytes exceed
minBytes with at least MinFetchWaitMs elapsed, or exceed maxBytes;
(FIFO coupling) after any run of the loop from the initial state, the pending
FIFO additions are exactly the accepted messages in order, each paired with
its converted offset, the batch holds exactly those messages' records, and
the batch never exceeds MaxFetchRecord records. -/
theorem fetch_partition_loop (mfr mfw minB maxB maxW : Int)
    (conv : PulsarMessage → Int) (hmfr : 0 ≤ mfr) :
    (∀ s e, (fetchStep mfr mfw minB maxB maxW conv s e).2 = true ↔
      ((e.elapsedTop ≥ maxW ∨ (s.records.length : Int) ≥ mfr) ∨
       e.quota = false ∨
       e.read = ReadResult.ctxExpired ∨
       (∃ m, e.read = ReadResult.msg m ∧
         ((s.byteLength + m.msgLength > minB ∧ e.elapsedAfter ≥ mfw) ∨
          s.byteLength + m.msgLength > maxB)))) ∧
    (∀ events,
      (fetchLoop mfr mfw minB maxB maxW conv events initialFetchState).pending
        = (fetchLoop mfr mfw minB maxB maxW conv events initialFetchState).accepted.map
            (fun m => { messageId := m.msgId, offset := conv m }) ∧
      (fetchLoop mfr mfw minB maxB maxW conv events initialFetchState).records
        = (fetchLoop mfr mfw minB maxB maxW conv events initialFetchState).accepted.map
            (fun m => (⟨m.payload, conv m -
              (fetchLoop mfr mfw minB maxB maxW conv events initialFetchState).baseOffset⟩ :
                FetchRecord)) ∧
      ((fetchLoop mfr mfw minB maxB maxW conv events initialFetchState).records.length : Int)
        ≤ mfr) := by
  constructor
  · intro s e
    unfold fetchStep
    by_cases h1 : e.elapsedTop ≥ maxW ∨ (s.records.length : Int) ≥ mfr
    · simp [h1]
    · by_cases h2 : e.quota = false
      · simp [h1, h2]
      · cases hread : e.read with
        | ctxExpired => simp [h1, h2, hread]
        | readError => simp [h1, h2, hread]
        | msg m =>
          rw [if_neg h1, if_neg h2]
          by_cases h4 : s.byteLength + m.msgLength > minB ∧ e.elapsedAfter ≥ mfw
          · simp [hread, h4, h1, h2]
          · by_cases h5 : s.byteLength + m.msgLength > maxB
            · simp [hread, h4, h5, h1, h2]
            · simp [hread, h4, h5, h1, h2]
  · intro events
    have hinit : fetchInv mfr conv initialFetchState := by
      refine ⟨rfl, rfl, fun _ => rfl, ?_⟩
      simpa [initialFetchState] using hmfr
    obtain ⟨hpend, hrec, _, hlen⟩ :=
      fetchLoop_inv mfr mfw minB maxB maxW conv events initialFetchState hinit
    exact ⟨hpend, hrec, hlen⟩

/-- Witness for C8 at a concrete trace: the hypothesis `0 ≤ 2` holds and the
FIFO coupling evaluates as stated on `demoEvents`. -/
theorem fetch_partition_loop_witness :
    (0 : Int) ≤ 2 ∧
    (fetchLoop 2 0 0 100 50 demoConv demoEvents initialFetchState).pending
      = (fetchLoop 2 0 0 100 50 demoConv demoEvents initialFetchState).accepted.map
          (fun m => { messageId := m.msgId, offset := demoConv m }) :=
  ⟨by decide, ((fetch_partition_loop 2 0 0 100 50 demoConv (by decide)).2 demoEvents).1⟩

namespace Kafsar

/-- C5: JoinGroup validation fails fast — an empty groupId answers
INVALID_GROUP_ID and an out-of-range sessionTimeoutMs answers
INVALID_SESSION_TIMEOUT, in both cases before any group is looked up or
created, leaving the coordinator state exactly as it was. -/
theorem join_param_validation (config : KafsarConfig) (st : GroupCoordinatorStandalone)
    (username groupId memberId clientId protocolType : String)
    (sessionTimeoutMs : Int) (protocols : List GroupProtocol) (uuid : String) :
    (groupId = "" →
      handleJoinGroup config st username groupId memberId clientId protocolType
          sessionTimeoutMs protocols uuid
        = (st, joinErrorResp memberId ErrorCode.INVALID_GROUP_ID)) ∧
    (groupId ≠ "" →
      (sessionTimeoutMs < config.groupMinSessionTimeoutMs ∨
        sessionTimeoutMs > config.groupMaxSessionTimeoutMs) →
      handleJoinGroup config st username groupId memberId clientId protocolType
          sessionTimeoutMs protocols uuid
        = (st, joinErrorResp memberId ErrorCode.INVALID_SESSION_TIMEOUT)) := by
  constructor
  · intro h
    simp [handleJoinGroup, joinGroupParamsCheck, h]
  · intro h1 h2
    simp [handleJoinGroup, joinGroupParamsCheck, h1, h2]

/-- Witness for C5: both validation failures at concrete inputs. -/
theorem join_param_validation_witness :
    (("" : String) = "" ∧
      handleJoinGroup demoConfig demoState "u" "" "m" "c" "consumer" 100 demoProtocols "x"
        = (demoState, joinErrorResp "m" ErrorCode.INVALID_GROUP_ID)) ∧
    (("g2" : String) ≠ "" ∧
      ((0 : Int) < demoConfig.groupMinSessionTimeoutMs ∨
        (0 : Int) > demoConfig.groupMaxSessionTimeoutMs) ∧
      handleJoinGroup demoConfig demoState "u" "g2" "m" "c" "consumer" 0 demoProtocols "x"
        = (demoState, joinErrorResp "m" ErrorCode.INVALID_SESSION_TIMEOUT)) :=
  ⟨⟨rfl, (join_param_validation demoConfig demoState "u" "" "m" "c" "consumer" 0
        demoProtocols "x").1 rfl⟩,
   ⟨by decide, by decide,
    (join_param_validation demoConfig demoState "u" "g2" "m" "c" "consumer" 0
        demoProtocols "x").2 (by decide) (by decide)⟩⟩

end Kafsar

namespace Kafsar

theorem leaveLoop_generationId (ms : List LeaveGroupMember) :
    ∀ g : Group, (leaveLoop g ms).generationId = g.generationId := by
  induction ms with
  | nil => intro g; rfl
  | cons m rest ih =>
    intro g
    rw [leaveLoop, ih]
    by_cases hm : m.memberId = g.leader <;> simp [hm, deleteMember]

theorem leaveLoop_members (ms : List LeaveGroupMember) :
    ∀ g : Group, (leaveLoop g ms).members
      = g.members.filter
          (fun p => !((ms.map LeaveGroupMember.memberId).contains p.1)) := by
  induction ms with
  | nil =>
    intro g
    simp [leaveLoop]
  | cons m rest ih =>
    intro g
    rw [leaveLoop, ih]
    have hmem : (deleteMember (if m.memberId = g.leader
        then { g with leader := "" } else g) m.memberId).members
        = g.members.filter (fun p => p.1 ≠ m.memberId) := by
      by_cases hm : m.memberId = g.leader <;> simp [hm, deleteMember, alistErase]
    rw [hmem, List.filter_filter]
    apply List.filter_congr
    intro a _
    by_cases ha : a.1 = m.memberId
    · simp [ha, List.contains_cons]
    · simp [ha, List.contains_cons]

theorem leaveLoop_leader (ms : List LeaveGroupMember) :
    ∀ g : Group, (leaveLoop g ms).leader
      = if (ms.map LeaveGroupMember.memberId).contains g.leader then ""
        else g.leader := by
  induction ms with
  | nil =>
    intro g
    simp [leaveLoop]
  | cons m rest ih =>
    intro g
    rw [leaveLoop]
    by_cases hm : m.memberId = g.leader
    · rw [if_pos hm, ih]
      simp [deleteMember, List.contains_cons, hm]
    · rw [if_neg hm, ih]
      have hne : ¬ g.leader = m.memberId := fun e => hm e.symm
      simp [deleteMember, List.contains_cons, hne]

/-- C7: LeaveGroup with an empty or unknown groupId answers INVALID_GROUP_ID;
otherwise it deletes every listed member (clearing the leader when listed),
bumps the generation exactly once, sets the status to Empty exactly when the
member map emptied and to PreparingRebalance otherwise, and answers NONE
echoing the member list; in particular a leave that removes every member of a
group whose leader is a member (or already empty) leaves leaderMemberId
empty. -/
theorem leave_group_spec (st : GroupCoordinatorStandalone)
    (username groupId : String) (members : List LeaveGroupMember) :
    (groupId = "" →
      handleLeaveGroup st username groupId members
        = (st, { errorCode := ErrorCode.INVALID_GROUP_ID, members := [] })) ∧
    (groupId ≠ "" → alistLookup st.groupManager (username ++ groupId) = none →
      handleLeaveGroup st username groupId members
        = (st, { errorCode := ErrorCode.INVALID_GROUP_ID, members := [] })) ∧
    (∀ g : Group, groupId ≠ "" →
      alistLookup st.groupManager (username ++ groupId) = some g →
      (handleLeaveGroup st username groupId members).2
          = { errorCode := ErrorCode.NONE, members := members } ∧
      ∃ g' : Group,
        alistLookup (handleLeaveGroup st username groupId members).1.groupManager
            (username ++ groupId) = some g' ∧
        g'.members = g.members.filter
          (fun p => !((members.map LeaveGroupMember.memberId).contains p.1)) ∧
        g'.generationId = g.generationId + 1 ∧
        g'.leader = (if (members.map LeaveGroupMember.memberId).contains g.leader
          then "" else g.leader) ∧
        g'.groupStatus = (if g'.members.isEmpty then GroupStatus.Empty
          else GroupStatus.PreparingRebalance) ∧
        ((g.leader = "" ∨ (alistLookup g.members g.leader).isSome = true) →
          g'.members = [] → g'.leader = "")) := by
  refine ⟨?_, ?_, ?_⟩
  · intro h
    simp [handleLeaveGroup, h]
  · intro h1 h2
    simp [handleLeaveGroup, h1, h2]
  · intro g h1 h2
    have hlast : ∀ g' : Group,
        g'.leader = (leaveLoop g members).leader →
        g'.members = (leaveLoop g members).members →
        (g.leader = "" ∨ (alistLookup g.members g.leader).isSome = true) →
        g'.members = [] → g'.leader = "" := by
      intro g' hld hmem hlead hempty
      rw [hld, leaveLoop_leader]
      rcases hlead with hl | hl
      · rw [hl]
        apply ite_self
      · obtain ⟨p, hp, hpk⟩ := alistLookup_mem g.members g.leader hl
        rw [hmem, leaveLoop_members] at hempty
        have hthis := List.filter_eq_nil_iff.mp hempty p hp
        simp only [Bool.not_eq_true', Bool.not_eq_false] at hthis
        rw [hpk] at hthis
        rw [if_pos hthis]
    constructor
    · simp [handleLeaveGroup, h1, h2]
    · by_cases hemp : (leaveLoop g members).members.isEmpty = true
      · refine ⟨{ leaveLoop g members with
            generationId := (leaveLoop g members).generationId + 1
            groupStatus := GroupStatus.Empty }, ?_, ?_, ?_, ?_, ?_, ?_⟩
        · simp [handleLeaveGroup, h1, h2, hemp, alistLookup_insert_self]
        · simp [leaveLoop_members]
        · simp [leaveLoop_generationId]
        · simp [leaveLoop_leader]
        · simp [hemp]
        · exact hlast _ rfl rfl
      · refine ⟨{ leaveLoop g members with
            generationId := (leaveLoop g members).generationId + 1
            groupStatus := GroupStatus.PreparingRebalance }, ?_, ?_, ?_, ?_, ?_, ?_⟩
        · simp [handleLeaveGroup, h1, h2, hemp, alistLookup_insert_self]
        · simp [leaveLoop_members]
        · simp [leaveLoop_generationId]
        · simp [leaveLoop_leader]
        · simp [hemp]
        · exact hlast _ rfl rfl

end Kafsar

namespace Kafsar

/-- Witness for C7: "A" leaves the demo group; the response is NONE echoing
the list (remaining conjuncts of the claim theorem follow from the same
instantiation). -/
theorem leave_group_spec_witness :
    ("g" : String) ≠ "" ∧
    alistLookup demoState.groupManager ("u" ++ "g") = some demoStableGroup ∧
    (handleLeaveGroup demoState "u" "g" [{ memberId := "A" }]).2
      = { errorCode := ErrorCode.NONE, members := [{ memberId := "A" }] } :=
  ⟨by decide, by decide,
   ((leave_group_spec demoState "u" "g" [{ memberId := "A" }]).2.2 demoStableGroup
      (by decide) (by decide)).1⟩

/-- C6: SyncGroup answers INVALID_GROUP_ID on an empty groupId,
MEMBER_ID_REQUIRED on an empty memberId, INVALID_GROUP_ID on an unknown
group, UNKNOWN_MEMBER_ID on an unknown member; with the member present it
answers UNKNOWN_MEMBER_ID when the group is Empty or Dead,
REBALANCE_IN_PROGRESS when it is PreparingRebalance, and NONE with the
member's stored assignment bytes when it is Stable. -/
theorem sync_group_responses (st : GroupCoordinatorStandalone)
    (username groupId memberId : String) (generation : Int)
    (assignments : List GroupAssignment) :
    (groupId = "" →
      handleSyncGroup st username groupId memberId generation assignments
        = some (st, { errorCode := ErrorCode.INVALID_GROUP_ID,
                      memberAssignment := [] })) ∧
    (groupId ≠ "" → memberId = "" →
      handleSyncGroup st username groupId memberId generation assignments
        = some (st, { errorCode := ErrorCode.MEMBER_ID_REQUIRED,
                      memberAssignment := [] })) ∧
    (groupId ≠ "" → memberId ≠ "" →
      alistLookup st.groupManager (username ++ groupId) = none →
      handleSyncGroup st username groupId memberId generation assignments
        = some (st, { errorCode := ErrorCode.INVALID_GROUP_ID,
                      memberAssignment := [] })) ∧
    (∀ g : Group, groupId ≠ "" → memberId ≠ "" →
      alistLookup st.groupManager (username ++ groupId) = some g →
      alistLookup g.members memberId = none →
      handleSyncGroup st username groupId memberId generation assignments
        = some (st, { errorCode := ErrorCode.UNKNOWN_MEMBER_ID,
                      memberAssignment := [] })) ∧
    (∀ (g : Group) (m : MemberMetadata), groupId ≠ "" → memberId ≠ "" →
      alistLookup st.groupManager (username ++ groupId) = some g →
      alistLookup g.members memberId = some m →
      (g.groupStatus = GroupStatus.Empty ∨ g.groupStatus = GroupStatus.Dead) →
      handleSyncGroup st username groupId memberId generation assignments
        = some (st, { errorCode := ErrorCode.UNKNOWN_MEMBER_ID,
                      memberAssignment := [] })) ∧
    (∀ (g : Group) (m : MemberMetadata), groupId ≠ "" → memberId ≠ "" →
      alistLookup st.groupManager (username ++ groupId) = some g →
      alistLookup g.members memberId = some m →
      g.groupStatus = GroupStatus.PreparingRebalance →
      handleSyncGroup st username groupId memberId generation assignments
        = some (st, { errorCode := ErrorCode.REBALANCE_IN_PROGRESS,
                      memberAssignment := [] })) ∧
    (∀ (g : Group) (m : MemberMetadata), groupId ≠ "" → memberId ≠ "" →
      alistLookup st.groupManager (username ++ groupId) = some g →
      alistLookup g.members memberId = some m →
      g.groupStatus = GroupStatus.Stable →
      handleSyncGroup st username groupId memberId generation assignments
        = some (st, { errorCode := ErrorCode.NONE,
                      memberAssignment := m.assignment })) := by
  refine ⟨?_, ?_, ?_, ?_, ?_, ?_, ?_⟩
  · intro h
    simp [handleSyncGroup, syncGroupParamsCheck, h]
  · intro h1 h2
    simp [handleSyncGroup, syncGroupParamsCheck, h1, h2]
  · intro h1 h2 h3
    simp [handleSyncGroup, syncGroupParamsCheck, h1, h2, h3]
  · intro g h1 h2 h3 h4
    simp [handleSyncGroup, syncGroupParamsCheck, h1, h2, h3, h4]
  · intro g m h1 h2 h3 h4 h5
    rcases h5 with h5 | h5 <;>
      simp [handleSyncGroup, syncGroupParamsCheck, h1, h2, h3, h4, h5]
  · intro g m h1 h2 h3 h4 h5
    simp [handleSyncGroup, syncGroupParamsCheck, h1, h2, h3, h4, h5]
  · intro g m h1 h2 h3 h4 h5
    simp [handleSyncGroup, syncGroupParamsCheck, h1, h2, h3, h4, h5]

/-- Witness for C6: the Stable case on the demo group returns member "A"'s
stored assignment, and the empty-memberId case returns MEMBER_ID_REQUIRED. -/
theorem sync_group_responses_witness :
    (("g" : String) ≠ "" ∧ ("A" : String) ≠ "" ∧
      alistLookup demoState.groupManager ("u" ++ "g") = some demoStableGroup ∧
      alistLookup demoStableGroup.members "A" = some demoMemberA ∧
      demoStableGroup.groupStatus = GroupStatus.Stable ∧
      handleSyncGroup demoState "u" "g" "A" 1 []
        = some (demoState, { errorCode := ErrorCode.NONE,
                             memberAssignment := demoMemberA.assignment })) ∧
    (("g" : String) ≠ "" ∧ ("" : String) = "" ∧
      handleSyncGroup demoState "u" "g" "" 1 []
        = some (demoState, { errorCode := ErrorCode.MEMBER_ID_REQUIRED,
                             memberAssignment := [] })) :=
  ⟨⟨by decide, by decide, by decide, by decide, rfl,
    (sync_group_responses demoState "u" "g" "A" 1 []).2.2.2.2.2.2 demoStableGroup
      demoMemberA (by decide) (by decide) (by decide) (by decide) rfl⟩,
   ⟨by decide, rfl,
    (sync_group_responses demoState "u" "g" "" 1 []).2.1 (by decide) rfl⟩⟩

end Kafsar

namespace Kafsar

theorem storeAssignments_isSome (assignments : List GroupAssignment) :
    ∀ members : List (String × MemberMetadata),
      (∀ a ∈ assignments, (alistLookup members a.memberId).isSome = true) →
      (storeAssignments members assignments).isSome = true := by
  induction assignments with
  | nil => intro members _; rfl
  | cons a rest ih =>
    intro members h
    obtain ⟨m, hm⟩ := Option.isSome_iff_exists.mp (h a (List.mem_cons_self a rest))
    rw [storeAssignments, hm]
    apply ih
    intro b hb
    exact alistLookup_insert_isSome _ _ _ _ (h b (List.mem_cons_of_mem a hb))

theorem syncCompleting_isSome (g : Group) (memberId : String)
    (assignments : List GroupAssignment)
    (h : g.leader = memberId → (storeAssignments g.members assignments).isSome = true) :
    (syncCompleting g memberId assignments).isSome = true := by
  unfold syncCompleting
  by_cases hl : g.leader = memberId
  · obtain ⟨ms, hms⟩ := Option.isSome_iff_exists.mp (h hl)
    rw [if_pos hl, hms]
    dsimp only
    split <;> rfl
  · rw [if_neg hl]
    dsimp only
    split <;> rfl

/-- C10 as stated is false: the leader's assignment-storing loop of
HandleSyncGroup indexes `group.members` with the incoming MemberId without an
existence check; at this input — leader "A" of a CompletingRebalance group
whose only member is "A", with a groupAssignments entry addressing "B" — the
lookup yields the nil zero value and the field write faults (the model's
`none`), so no SyncGroupResp is returned. -/
theorem sync_unknown_assignment_fault :
    demoCRGroup.leader = "A" ∧
    demoCRGroup.groupStatus = GroupStatus.CompletingRebalance ∧
    alistLookup demoCRGroup.members "B" = none ∧
    handleSyncGroup demoCRState "u" "g" "A" 1
      [{ memberId := "B", memberAssignment := [9] }] = none := by
  refine ⟨rfl, rfl, rfl, ?_⟩
  decide

/-- C10 amended: a leader's SyncGroup in CompletingRebalance performs only
defined member-map accesses and returns a SyncGroupResp without runtime
fault provided every groupAssignments entry addresses a current member of
the group. -/
theorem sync_assignments_total (st : GroupCoordinatorStandalone)
    (username groupId memberId : String) (generation : Int)
    (assignments : List GroupAssignment) (g : Group) (m : MemberMetadata)
    (h1 : groupId ≠ "") (h2 : memberId ≠ "")
    (h3 : alistLookup st.groupManager (username ++ groupId) = some g)
    (h4 : alistLookup g.members memberId = some m)
    (h5 : g.groupStatus = GroupStatus.CompletingRebalance)
    (h7 : ∀ a ∈ assignments, (alistLookup g.members a.memberId).isSome = true) :
    (handleSyncGroup st username groupId memberId generation assignments).isSome
      = true := by
  have hsc := syncCompleting_isSome g memberId assignments
    (fun _ => storeAssignments_isSome assignments g.members h7)
  obtain ⟨r, hr⟩ := Option.isSome_iff_exists.mp hsc
  simp [handleSyncGroup, syncGroupParamsCheck, h1, h2, h3, h4, h5, hr]

/-- Witness for C10's amended claim: the leader stores an assignment for
itself — a current member — and the call returns a response. -/
theorem sync_assignments_total_witness :
    (("g" : String) ≠ "" ∧ ("A" : String) ≠ "" ∧
      alistLookup demoCRState.groupManager ("u" ++ "g") = some demoCRGroup ∧
      alistLookup demoCRGroup.members "A" = some demoMemberA ∧
      demoCRGroup.groupStatus = GroupStatus.CompletingRebalance ∧
      (∀ a ∈ [({ memberId := "A", memberAssignment := [9] } : GroupAssignment)],
        (alistLookup demoCRGroup.members a.memberId).isSome = true)) ∧
    (handleSyncGroup demoCRState "u" "g" "A" 1
      [{ memberId := "A", memberAssignment := [9] }]).isSome = true :=
  ⟨⟨by decide, by decide, by decide, by decide, rfl, by decide⟩,
   sync_assignments_total demoCRState "u" "g" "A" 1
     [{ memberId := "A", memberAssignment := [9] }] demoCRGroup demoMemberA
     (by decide) (by decide) (by decide) (by decide) rfl (by decide)⟩

end Kafsar

namespace Kafsar

theorem vote_canRebalance (g : Group) (ps : List GroupProtocol) :
    (vote g ps).canRebalance = g.canRebalance := by
  unfold vote
  split <;> rfl

theorem vote_members (g : Group) (ps : List GroupProtocol) :
    (vote g ps).members = g.members := by
  unfold vote
  split <;> rfl

theorem doRebalance_members (g : Group) :
    ((doRebalance g).1).members = g.members := by
  unfold doRebalance prepareRebalance
  dsimp only
  split <;> rfl

theorem doRebalance_ok (g : Group) (h : g.canRebalance = true) :
    (doRebalance g).2 = true := by
  unfold doRebalance prepareRebalance
  dsimp only
  rw [if_pos h]

theorem getLeaderMembers_members (g : Group) (mid : String) :
    ((getLeaderMembers g mid).1).members = g.members := by
  unfold getLeaderMembers
  dsimp only
  split <;> split <;> rfl

theorem addMemberAndRebalance_ok (g : Group) (c mid pt : String)
    (ps : List GroupProtocol) (uu : String) (hcr : g.canRebalance = true) :
    (addMemberAndRebalance g c mid pt ps uu).2.2 = true := by
  unfold addMemberAndRebalance
  dsimp only
  apply doRebalance_ok
  show (if g.groupStatus = GroupStatus.Empty then vote g ps else g).canRebalance = true
  split
  · rw [vote_canRebalance]; exact hcr
  · exact hcr

theorem addMemberAndRebalance_lookup (g : Group) (c mid pt : String)
    (ps : List GroupProtocol) (uu : String) :
    (alistLookup ((addMemberAndRebalance g c mid pt ps uu).2.1).members
      ((addMemberAndRebalance g c mid pt ps uu).1)).isSome = true := by
  unfold addMemberAndRebalance
  dsimp only
  rw [doRebalance_members]
  dsimp only
  rw [alistLookup_insert_self]
  rfl

theorem joinAwaitPhase_new_eviction (g : Group) (mid : String)
    (hm : (alistLookup g.members mid).isSome = true)
    (herr : (joinAwaitPhase g mid true).2.errorCode
      = ErrorCode.COORDINATOR_LOAD_IN_PROGRESS) :
    (joinAwaitPhase g mid true).2.memberId = mid ∧
    alistLookup ((joinAwaitPhase g mid true).1).members
      ((joinAwaitPhase g mid true).2.memberId) = none := by
  obtain ⟨m, hmm⟩ := Option.isSome_iff_exists.mp hm
  unfold joinAwaitPhase awaitingJoin at herr ⊢
  rw [hmm] at herr ⊢
  dsimp only at herr ⊢
  by_cases hc : checkJoinMemberGenerationId { g with members := alistInsert g.members mid { m with joinGenerationId := g.generationId } } = true
  · rw [if_pos hc] at herr
    simp at herr
  · rw [if_neg hc] at herr ⊢
    constructor <;> simp [deleteMember, joinErrorResp, alistLookup_erase_self]

theorem joinCompletingTail_new_eviction (g : Group) (mid : String)
    (hm : (alistLookup g.members mid).isSome = true)
    (herr : (joinCompletingTail g mid true).2.errorCode
      = ErrorCode.COORDINATOR_LOAD_IN_PROGRESS) :
    (joinCompletingTail g mid true).2.memberId = mid ∧
    alistLookup ((joinCompletingTail g mid true).1).members
      ((joinCompletingTail g mid true).2.memberId) = none := by
  have hm2 : (alistLookup ((getLeaderMembers g mid).1).members mid).isSome = true := by
    rw [getLeaderMembers_members]; exact hm
  obtain ⟨m, hmm⟩ := Option.isSome_iff_exists.mp hm2
  unfold joinCompletingTail awaitingJoin at herr ⊢
  dsimp only at herr ⊢
  rw [hmm] at herr ⊢
  dsimp only at herr ⊢
  by_cases hc : checkJoinMemberGenerationId { (getLeaderMembers g mid).1 with members := alistInsert ((getLeaderMembers g mid).1).members mid { m with joinGenerationId := ((getLeaderMembers g mid).1).generationId } } = true
  · rw [if_pos hc] at herr
    simp at herr
  · rw [if_neg hc] at herr ⊢
    constructor <;> simp [deleteMember, joinErrorResp, alistLookup_erase_self]

end Kafsar

namespace Kafsar

theorem joinPreparing_empty_eviction (g : Group) (c pt : String)
    (ps : List GroupProtocol) (uu : String)
    (hm : alistLookup g.members "" = none) (hcr : g.canRebalance = true)
    (herr : (joinPreparing g "" c pt ps uu).2.errorCode
      = ErrorCode.COORDINATOR_LOAD_IN_PROGRESS) :
    alistLookup ((joinPreparing g "" c pt ps uu).1).members
      ((joinPreparing g "" c pt ps uu).2.memberId) = none := by
  unfold joinPreparing addNewMemberAndReBalance at herr ⊢
  dsimp only at herr ⊢
  rw [if_pos (Or.inl (show ("" : String) = EmptyMemberId from rfl))] at herr ⊢
  by_cases hw : g.members.length > 0 ∧ g.groupStatus ≠ GroupStatus.Stable
  · rw [if_pos hw] at herr ⊢
    dsimp only at herr ⊢
    rw [if_pos rfl]
    exact hm
  · rw [if_neg hw] at herr ⊢
    have hok := addMemberAndRebalance_ok g c "" pt ps uu hcr
    have hcond : ¬ ((addMemberAndRebalance g c "" pt ps uu).2.2 = false) := by
      rw [hok]; decide
    rw [if_neg hcond] at herr ⊢
    exact (joinAwaitPhase_new_eviction _ _
      (addMemberAndRebalance_lookup g c "" pt ps uu) herr).2

theorem joinEmptyStable_empty_eviction (g : Group) (c pt : String)
    (ps : List GroupProtocol) (uu : String)
    (hm : alistLookup g.members "" = none) (hcr : g.canRebalance = true)
    (herr : (joinEmptyStable g "" c pt ps uu).2.errorCode
      = ErrorCode.COORDINATOR_LOAD_IN_PROGRESS) :
    alistLookup ((joinEmptyStable g "" c pt ps uu).1).members
      ((joinEmptyStable g "" c pt ps uu).2.memberId) = none := by
  unfold joinEmptyStable addNewMemberAndReBalance at herr ⊢
  dsimp only at herr ⊢
  rw [if_pos (Or.inl (show ("" : String) = EmptyMemberId from rfl))] at herr ⊢
  by_cases hw : g.members.length > 0 ∧ g.groupStatus ≠ GroupStatus.Stable
  · rw [if_pos hw] at herr ⊢
    dsimp only at herr ⊢
    rw [if_pos rfl]
    exact hm
  · rw [if_neg hw] at herr ⊢
    have hok := addMemberAndRebalance_ok g c "" pt ps uu hcr
    have hcond : ¬ ((addMemberAndRebalance g c "" pt ps uu).2.2 = false) := by
      rw [hok]; decide
    rw [if_neg hcond] at herr ⊢
    exact (joinAwaitPhase_new_eviction _ _
      (addMemberAndRebalance_lookup g c "" pt ps uu) herr).2

theorem joinCompleting_empty_eviction (g : Group) (c pt : String)
    (ps : List GroupProtocol) (uu : String)
    (hm : alistLookup g.members "" = none) (hcr : g.canRebalance = true)
    (herr : (joinCompleting g "" c pt ps uu).2.errorCode
      = ErrorCode.COORDINATOR_LOAD_IN_PROGRESS) :
    alistLookup ((joinCompleting g "" c pt ps uu).1).members
      ((joinCompleting g "" c pt ps uu).2.memberId) = none := by
  unfold joinCompleting addNewMemberAndReBalance at herr ⊢
  dsimp only at herr ⊢
  rw [if_pos (Or.inl (show ("" : String) = EmptyMemberId from rfl))] at herr ⊢
  by_cases hw : g.members.length > 0 ∧ g.groupStatus ≠ GroupStatus.Stable
  · rw [if_pos hw] at herr ⊢
    dsimp only at herr ⊢
    rw [if_pos rfl]
    exact hm
  · rw [if_neg hw] at herr ⊢
    have hok := addMemberAndRebalance_ok g c "" pt ps uu hcr
    have hcond : ¬ ((addMemberAndRebalance g c "" pt ps uu).2.2 = false) := by
      rw [hok]; decide
    rw [if_neg hcond] at herr ⊢
    exact (joinCompletingTail_new_eviction _ _
      (addMemberAndRebalance_lookup g c "" pt ps uu) herr).2

theorem joinGroupCore_empty_eviction (config : KafsarConfig) (g : Group)
    (c pt : String) (ps : List GroupProtocol) (uu : String)
    (hm : alistLookup g.members "" = none) (hcr : g.canRebalance = true)
    (herr : (joinGroupCore config g "" c pt ps uu).2.errorCode
      = ErrorCode.COORDINATOR_LOAD_IN_PROGRESS) :
    alistLookup ((joinGroupCore config g "" c pt ps uu).1).members
      ((joinGroupCore config g "" c pt ps uu).2.memberId) = none := by
  unfold joinGroupCore at herr ⊢
  cases hpc : joinGroupProtocolCheck g pt ps with
  | some code =>
    exact hm
  | none =>
    rw [hpc] at herr
    dsimp only at herr ⊢
    by_cases hcap : config.maxConsumersPerGroup > 0 ∧
        (g.members.length : Int) ≥ config.maxConsumersPerGroup
    · rw [if_pos hcap] at herr ⊢
      exact hm
    · rw [if_neg hcap] at herr ⊢
      by_cases hdead : g.groupStatus = GroupStatus.Dead
      · rw [if_pos hdead] at herr ⊢
        exact hm
      · rw [if_neg hdead] at herr ⊢
        by_cases hprep : g.groupStatus = GroupStatus.PreparingRebalance
        · rw [if_pos hprep] at herr ⊢
          exact joinPreparing_empty_eviction g c pt ps uu hm hcr herr
        · rw [if_neg hprep] at herr ⊢
          by_cases hcomp : g.groupStatus = GroupStatus.CompletingRebalance
          · rw [if_pos hcomp] at herr ⊢
            exact joinCompleting_empty_eviction g c pt ps uu hm hcr herr
          · rw [if_neg hcomp] at herr ⊢
            by_cases hes : g.groupStatus = GroupStatus.Empty ∨
                g.groupStatus = GroupStatus.Stable
            · rw [if_pos hes] at herr ⊢
              exact joinEmptyStable_empty_eviction g c pt ps uu hm hcr herr
            · rw [if_neg hes] at herr ⊢
              exact hm

end Kafsar

namespace Kafsar

/-- C3 as stated is false: the source evicts an aborted joiner only when the
caller's memberId was the empty string (`isNewMember := memberId ==
EmptyMemberId`), although admission also adds callers whose non-empty
memberId is unknown.  At this input — caller "B-1", unknown to the Stable
demo group whose member "A" is stale — the join barrier times out
(COORDINATOR_LOAD_IN_PROGRESS) yet "B-1" remains in the member map as a
phantom. -/
theorem join_timeout_phantom_counterexample :
    alistLookup demoStableGroup.members "B-1" = none ∧
    (handleJoinGroup demoConfig demoState "u" "g" "B-1" "c" "consumer" 100
      demoProtocols "u1").2.errorCode = ErrorCode.COORDINATOR_LOAD_IN_PROGRESS ∧
    ((alistLookup (handleJoinGroup demoConfig demoState "u" "g" "B-1" "c" "consumer" 100
        demoProtocols "u1").1.groupManager ("u" ++ "g")).map
      (fun g => (alistLookup g.members "B-1").isSome)) = some true := by
  refine ⟨rfl, ?_, ?_⟩ <;> decide

/-- C3 amended: a JoinGroup caller whose memberId is the empty string and
whose await-join barrier times out has the member the call added removed
before the COORDINATOR_LOAD_IN_PROGRESS response, so it leaves no phantom;
callers that are new only in the sense of carrying an unknown non-empty
memberId are not evicted (see the counterexample).  The hypotheses state
that the addressed group, if it exists, has no member keyed by the empty
string and its rebalance latch free — both true of every group between
handler calls. -/
theorem join_empty_memberId_eviction (config : KafsarConfig)
    (st : GroupCoordinatorStandalone) (username groupId clientId protocolType : String)
    (sessionTimeoutMs : Int) (protocols : List GroupProtocol) (uuid : String)
    (hclean : ∀ g : Group, alistLookup st.groupManager (username ++ groupId) = some g →
      alistLookup g.members "" = none ∧ g.canRebalance = true)
    (herr : (handleJoinGroup config st username groupId "" clientId protocolType
        sessionTimeoutMs protocols uuid).2.errorCode
      = ErrorCode.COORDINATOR_LOAD_IN_PROGRESS) :
    ∀ g' : Group,
      alistLookup (handleJoinGroup config st username groupId "" clientId protocolType
          sessionTimeoutMs protocols uuid).1.groupManager (username ++ groupId)
        = some g' →
      alistLookup g'.members
        ((handleJoinGroup config st username groupId "" clientId protocolType
          sessionTimeoutMs protocols uuid).2.memberId) = none := by
  intro g' hg'
  unfold handleJoinGroup at herr hg' ⊢
  cases hpar : joinGroupParamsCheck config groupId sessionTimeoutMs with
  | some code =>
    rw [hpar] at herr hg'
    dsimp only at herr hg' ⊢
    exact (hclean g' hg').1
  | none =>
    rw [hpar] at herr hg'
    dsimp only at herr hg' ⊢
    cases hlk : alistLookup st.groupManager (username ++ groupId) with
    | some g =>
      rw [hlk] at herr hg'
      dsimp only at herr hg' ⊢
      rw [alistLookup_insert_self] at hg'
      cases Option.some.inj hg'
      exact joinGroupCore_empty_eviction config g clientId protocolType protocols uuid
        (hclean g hlk).1 (hclean g hlk).2 herr
    | none =>
      rw [hlk] at herr hg'
      dsimp only at herr hg' ⊢
      rw [alistLookup_insert_self] at hg'
      cases Option.some.inj hg'
      exact joinGroupCore_empty_eviction config
        (newGroup groupId protocolType sessionTimeoutMs) clientId protocolType
        protocols uuid rfl rfl herr

/-- Witness for C3's amended claim: the empty-memberId caller on the demo
group times out and the generated member "c-u1" is gone afterwards. -/
theorem join_empty_memberId_eviction_witness :
    (handleJoinGroup demoConfig demoState "u" "g" "" "c" "consumer" 100
      demoProtocols "u1").2.errorCode = ErrorCode.COORDINATOR_LOAD_IN_PROGRESS ∧
    ((alistLookup (handleJoinGroup demoConfig demoState "u" "g" "" "c" "consumer" 100
        demoProtocols "u1").1.groupManager ("u" ++ "g")).map
      (fun g => alistLookup g.members
        ((handleJoinGroup demoConfig demoState "u" "g" "" "c" "consumer" 100
          demoProtocols "u1").2.memberId))) = some none := by
  have hclean : ∀ g : Group,
      alistLookup demoState.groupManager ("u" ++ "g") = some g →
      alistLookup g.members "" = none ∧ g.canRebalance = true := by
    intro g hg
    have h2 : some demoStableGroup = some g := (by decide : alistLookup
      demoState.groupManager ("u" ++ "g") = some demoStableGroup).symm.trans hg
    cases Option.some.inj h2
    exact ⟨rfl, rfl⟩
  have herr : (handleJoinGroup demoConfig demoState "u" "g" "" "c" "consumer" 100
      demoProtocols "u1").2.errorCode = ErrorCode.COORDINATOR_LOAD_IN_PROGRESS := by
    decide
  have hthm := join_empty_memberId_eviction demoConfig demoState "u" "g" "c"
    "consumer" 100 demoProtocols "u1" hclean herr
  refine ⟨herr, ?_⟩
  cases hflk : alistLookup (handleJoinGroup demoConfig demoState "u" "g" "" "c"
      "consumer" 100 demoProtocols "u1").1.groupManager ("u" ++ "g") with
  | none => exact absurd hflk (by decide)
  | some G =>
    show some (alistLookup G.members _) = some none
    rw [hthm G hflk]

end Kafsar

namespace Kafsar

theorem vote_generationId (g : Group) (ps : List GroupProtocol) :
    (vote g ps).generationId = g.generationId := by
  unfold vote
  split <;> rfl

theorem doRebalance_generationId (g : Group) :
    ((doRebalance g).1).generationId = g.generationId ∨
    ((doRebalance g).1).generationId = g.generationId + 1 := by
  unfold doRebalance prepareRebalance
  dsimp only
  split
  · exact Or.inr rfl
  · exact Or.inl rfl

theorem awaitingJoin_generationId (g : Group) (mid : String) :
    ((awaitingJoin g mid).1).generationId = g.generationId := by
  unfold awaitingJoin
  cases alistLookup g.members mid with
  | none => rfl
  | some m =>
    dsimp only
    split <;> rfl

theorem getLeaderMembers_generationId (g : Group) (mid : String) :
    ((getLeaderMembers g mid).1).generationId = g.generationId := by
  unfold getLeaderMembers
  dsimp only
  split <;> split <;> rfl

theorem joinAwaitPhase_generationId (g : Group) (mid : String) (b : Bool) :
    ((joinAwaitPhase g mid b).1).generationId = g.generationId := by
  unfold joinAwaitPhase
  dsimp only
  split
  · rw [getLeaderMembers_generationId, awaitingJoin_generationId]
  · split
    · show ((deleteMember ((awaitingJoin g mid).1) mid)).generationId = g.generationId
      simp [deleteMember, awaitingJoin_generationId]
    · exact awaitingJoin_generationId g mid

theorem joinCompletingTail_generationId (g : Group) (mid : String) (b : Bool) :
    ((joinCompletingTail g mid b).1).generationId = g.generationId := by
  unfold joinCompletingTail
  dsimp only
  split
  · rw [awaitingJoin_generationId, getLeaderMembers_generationId]
  · split
    · show ((deleteMember ((awaitingJoin ((getLeaderMembers g mid).1) mid).1) mid)).generationId
        = g.generationId
      simp [deleteMember, awaitingJoin_generationId, getLeaderMembers_generationId]
    · rw [awaitingJoin_generationId, getLeaderMembers_generationId]

theorem addMemberAndRebalance_generationId (g : Group) (c mid pt : String)
    (ps : List GroupProtocol) (uu : String) :
    ((addMemberAndRebalance g c mid pt ps uu).2.1).generationId = g.generationId ∨
    ((addMemberAndRebalance g c mid pt ps uu).2.1).generationId = g.generationId + 1 := by
  unfold addMemberAndRebalance
  dsimp only
  have hpre : ∀ members,
      ({ (if g.groupStatus = GroupStatus.Empty then vote g ps else g) with
        members := members } : Group).generationId = g.generationId := by
    intro members
    split
    · show (vote g ps).generationId = g.generationId
      exact vote_generationId g ps
    · rfl
  rcases doRebalance_generationId
      ({ (if g.groupStatus = GroupStatus.Empty then vote g ps else g) with
        members := alistInsert
          ((if g.groupStatus = GroupStatus.Empty then vote g ps else g)).members
          (if mid = EmptyMemberId then c ++ "-" ++ uu else mid)
          { clientId := c,
            memberId := if mid = EmptyMemberId then c ++ "-" ++ uu else mid,
            metadata := (alistLookup
              (List.foldl (fun acc p => alistInsert acc p.protocolName p.protocolMetadata)
                [] ps)
              ((if g.groupStatus = GroupStatus.Empty then vote g ps else g)).supportedProtocol).getD [],
            protocolType := pt,
            protocols := List.foldl
              (fun acc p => alistInsert acc p.protocolName p.protocolMetadata) [] ps,
            assignment := [], joinGenerationId := 0, syncGenerationId := 0 } } : Group)
      with h | h
  · left
    rw [h]
    apply hpre
  · right
    rw [h]
    rw [hpre]

end Kafsar

namespace Kafsar

theorem addNewMemberAndReBalance_generationId (g : Group) (c mid pt : String)
    (ps : List GroupProtocol) (uu : String) :
    ((addNewMemberAndReBalance g c mid pt ps uu).2.1).generationId = g.generationId ∨
    ((addNewMemberAndReBalance g c mid pt ps uu).2.1).generationId
      = g.generationId + 1 := by
  unfold addNewMemberAndReBalance
  split
  · exact Or.inl rfl
  · exact addMemberAndRebalance_generationId g c mid pt ps uu

theorem updateMemberAndRebalance_generationId (g : Group) (c mid pt : String)
    (ps : List GroupProtocol) :
    ((updateMemberAndRebalance g c mid pt ps).1).generationId = g.generationId ∨
    ((updateMemberAndRebalance g c mid pt ps).1).generationId = g.generationId + 1 :=
  doRebalance_generationId g

theorem joinPreparing_generationId (g : Group) (mid c pt : String)
    (ps : List GroupProtocol) (uu : String) :
    ((joinPreparing g mid c pt ps uu).1).generationId = g.generationId ∨
    ((joinPreparing g mid c pt ps uu).1).generationId = g.generationId + 1 := by
  unfold joinPreparing
  dsimp only
  split
  · split
    · exact addNewMemberAndReBalance_generationId g c mid pt ps uu
    · rw [joinAwaitPhase_generationId]
      exact addNewMemberAndReBalance_generationId g c mid pt ps uu
  · rw [joinAwaitPhase_generationId]
    exact Or.inl rfl

theorem joinCompleting_generationId (g : Group) (mid c pt : String)
    (ps : List GroupProtocol) (uu : String) :
    ((joinCompleting g mid c pt ps uu).1).generationId = g.generationId ∨
    ((joinCompleting g mid c pt ps uu).1).generationId = g.generationId + 1 := by
  unfold joinCompleting
  dsimp only
  split
  · split
    · exact addNewMemberAndReBalance_generationId g c mid pt ps uu
    · rw [joinCompletingTail_generationId]
      exact addNewMemberAndReBalance_generationId g c mid pt ps uu
  · split
    · split
      · exact updateMemberAndRebalance_generationId g c mid pt ps
      · rw [joinCompletingTail_generationId]
        exact updateMemberAndRebalance_generationId g c mid pt ps
    · rw [joinCompletingTail_generationId]
      exact Or.inl rfl

theorem joinEmptyStable_generationId (g : Group) (mid c pt : String)
    (ps : List GroupProtocol) (uu : String) :
    ((joinEmptyStable g mid c pt ps uu).1).generationId = g.generationId ∨
    ((joinEmptyStable g mid c pt ps uu).1).generationId = g.generationId + 1 := by
  unfold joinEmptyStable
  dsimp only
  split
  · split
    · exact addNewMemberAndReBalance_generationId g c mid pt ps uu
    · rw [joinAwaitPhase_generationId]
      exact addNewMemberAndReBalance_generationId g c mid pt ps uu
  · split
    · split
      · exact updateMemberAndRebalance_generationId g c mid pt ps
      · rw [joinAwaitPhase_generationId]
        exact updateMemberAndRebalance_generationId g c mid pt ps
    · rw [joinAwaitPhase_generationId]
      exact Or.inl rfl

theorem joinGroupCore_generationId (config : KafsarConfig) (g : Group)
    (mid c pt : String) (ps : List GroupProtocol) (uu : String) :
    ((joinGroupCore config g mid c pt ps uu).1).generationId = g.generationId ∨
    ((joinGroupCore config g mid c pt ps uu).1).generationId = g.generationId + 1 := by
  unfold joinGroupCore
  cases joinGroupProtocolCheck g pt ps with
  | some code => exact Or.inl rfl
  | none =>
    dsimp only
    split
    · exact Or.inl rfl
    · split
      · exact Or.inl rfl
      · split
        · exact joinPreparing_generationId g mid c pt ps uu
        · split
          · exact joinCompleting_generationId g mid c pt ps uu
          · split
            · exact joinEmptyStable_generationId g mid c pt ps uu
            · exact Or.inl rfl

theorem syncCompleting_generationId (g : Group) (mid : String)
    (as : List GroupAssignment) (r : Group × SyncGroupResp)
    (hr : syncCompleting g mid as = some r) :
    r.1.generationId = g.generationId := by
  unfold syncCompleting at hr
  cases hx : (if g.leader = mid then storeAssignments g.members as
      else some g.members) with
  | none => rw [hx] at hr; exact absurd hr (by simp)
  | some ms =>
    rw [hx] at hr
    dsimp only at hr
    split at hr
    all_goals
      cases Option.some.inj hr
      split <;> rfl

end Kafsar

namespace Kafsar

theorem handleJoinGroup_generationId (config : KafsarConfig)
    (st : GroupCoordinatorStandalone) (u gid mid c pt : String) (stm : Int)
    (ps : List GroupProtocol) (uu : String) (key : String) (g : Group)
    (hg : alistLookup st.groupManager key = some g) :
    ∃ g', alistLookup
        ((handleJoinGroup config st u gid mid c pt stm ps uu).1).groupManager key
        = some g' ∧
      (g'.generationId = g.generationId ∨ g'.generationId = g.generationId + 1) := by
  unfold handleJoinGroup
  cases joinGroupParamsCheck config gid stm with
  | some code => exact ⟨g, hg, Or.inl rfl⟩
  | none =>
    dsimp only
    by_cases hk : key = u ++ gid
    · subst hk
      rw [hg]
      dsimp only
      refine ⟨_, alistLookup_insert_self _ _ _, ?_⟩
      exact joinGroupCore_generationId config g mid c pt ps uu
    · cases hlk : alistLookup st.groupManager (u ++ gid) <;>
        (dsimp only;
         exact ⟨g, by rw [alistLookup_insert_ne _ _ _ _ hk,
           alistLookup_insert_ne _ _ _ _ hk]; exact hg, Or.inl rfl⟩)

theorem handleSyncGroup_generationId (st : GroupCoordinatorStandalone)
    (u gid mid : String) (gen : Int) (as : List GroupAssignment)
    (st' : GroupCoordinatorStandalone) (resp : SyncGroupResp)
    (h : handleSyncGroup st u gid mid gen as = some (st', resp))
    (key : String) (g : Group) (hg : alistLookup st.groupManager key = some g) :
    ∃ g', alistLookup st'.groupManager key = some g' ∧
      g'.generationId = g.generationId := by
  have hid : ∀ resp0 : SyncGroupResp, some (st, resp0) = some (st', resp) →
      ∃ g', alistLookup st'.groupManager key = some g' ∧
        g'.generationId = g.generationId := by
    intro resp0 hh
    have hst : st = st' := congrArg Prod.fst (Option.some.inj hh)
    subst hst
    exact ⟨g, hg, rfl⟩
  unfold handleSyncGroup at h
  cases hpar : syncGroupParamsCheck gid mid with
  | some code =>
    rw [hpar] at h
    exact hid _ h
  | none =>
    rw [hpar] at h
    dsimp only at h
    cases hlk : alistLookup st.groupManager (u ++ gid) with
    | none =>
      rw [hlk] at h
      exact hid _ h
    | some g0 =>
      rw [hlk] at h
      dsimp only at h
      cases hmem : alistLookup g0.members mid with
      | none =>
        rw [hmem] at h
        exact hid _ h
      | some m =>
        rw [hmem] at h
        dsimp only at h
        split at h
        · exact hid _ h
        · split at h
          · exact hid _ h
          · split at h
            · cases hsc : syncCompleting g0 mid as with
              | none =>
                rw [hsc] at h
                exact absurd h (by simp)
              | some r =>
                rw [hsc] at h
                dsimp only at h
                have hst := congrArg Prod.fst (Option.some.inj h)
                dsimp only at hst
                subst hst
                by_cases hk : key = u ++ gid
                · subst hk
                  have hgg : g = g0 := Option.some.inj (hg.symm.trans hlk)
                  refine ⟨r.1, alistLookup_insert_self _ _ _, ?_⟩
                  exact (syncCompleting_generationId g0 mid as r hsc).trans
                    (congrArg Group.generationId hgg).symm
                · exact ⟨g, by rw [alistLookup_insert_ne _ _ _ _ hk]; exact hg, rfl⟩
            · split at h
              · exact hid _ h
              · exact hid _ h

theorem handleLeaveGroup_generationId (st : GroupCoordinatorStandalone)
    (u gid : String) (ms : List LeaveGroupMember) (key : String) (g : Group)
    (hg : alistLookup st.groupManager key = some g) :
    ∃ g', alistLookup ((handleLeaveGroup st u gid ms).1).groupManager key
        = some g' ∧
      (g'.generationId = g.generationId ∨ g'.generationId = g.generationId + 1) := by
  unfold handleLeaveGroup
  split
  · exact ⟨g, hg, Or.inl rfl⟩
  · cases hlk : alistLookup st.groupManager (u ++ gid) with
    | none => exact ⟨g, hg, Or.inl rfl⟩
    | some g0 =>
      dsimp only
      by_cases hk : key = u ++ gid
      · subst hk
        have hgg : g = g0 := Option.some.inj (hg.symm.trans hlk)
        subst hgg
        refine ⟨_, alistLookup_insert_self _ _ _, Or.inr ?_⟩
        split <;> simp [leaveLoop_generationId]
      · refine ⟨g, ?_, Or.inl rfl⟩
        rw [alistLookup_insert_ne _ _ _ _ hk]
        exact hg

theorem applyOp_generationId (config : KafsarConfig)
    (st : GroupCoordinatorStandalone) (op : CoordinatorOp)
    (st' : GroupCoordinatorStandalone) (happ : applyOp config st op = some st')
    (key : String) (g : Group) (hg : alistLookup st.groupManager key = some g) :
    ∃ g', alistLookup st'.groupManager key = some g' ∧
      (g'.generationId = g.generationId ∨ g'.generationId = g.generationId + 1) := by
  cases op with
  | join u gd m c p t ps uu =>
    have h2 : (handleJoinGroup config st u gd m c p t ps uu).1 = st' :=
      Option.some.inj happ
    subst h2
    exact handleJoinGroup_generationId config st u gd m c p t ps uu key g hg
  | sync u gd m gen as =>
    unfold applyOp at happ
    dsimp only at happ
    cases hs : handleSyncGroup st u gd m gen as with
    | none =>
      rw [hs] at happ
      exact absurd happ (by simp)
    | some r =>
      rw [hs] at happ
      have h2 : r.1 = st' := Option.some.inj happ
      subst h2
      obtain ⟨g', hgl, hgen⟩ := handleSyncGroup_generationId st u gd m gen as r.1 r.2
        (by rw [hs]) key g hg
      exact ⟨g', hgl, Or.inl hgen⟩
  | heartbeat u gd m =>
    have h2 : st = st' := Option.some.inj happ
    subst h2
    exact ⟨g, hg, Or.inl rfl⟩
  | leave u gd ms =>
    have h2 : (handleLeaveGroup st u gd ms).1 = st' := Option.some.inj happ
    subst h2
    exact handleLeaveGroup_generationId st u gd ms key g hg

theorem runOps_generationId (config : KafsarConfig) (ops : List CoordinatorOp) :
    ∀ (st st' : GroupCoordinatorStandalone) (key : String) (g g' : Group),
      runOps config st ops = some st' →
      alistLookup st.groupManager key = some g →
      alistLookup st'.groupManager key = some g' →
      g.generationId ≤ g'.generationId := by
  induction ops with
  | nil =>
    intro st st' key g g' h hg hg'
    have h2 : st = st' := Option.some.inj h
    subst h2
    have : g = g' := Option.some.inj (hg.symm.trans hg')
    subst this
    exact le_refl _
  | cons op rest ih =>
    intro st st' key g g' h hg hg'
    unfold runOps at h
    cases happ : applyOp config st op with
    | none =>
      rw [happ] at h
      exact absurd h (by simp)
    | some st1 =>
      rw [happ] at h
      obtain ⟨g1, hg1, hgen⟩ := applyOp_generationId config st op st1 happ key g hg
      have hrest := ih st1 st' key g1 g' h hg1 hg'
      rcases hgen with he | he <;> omega

/-- C4: on any group of the coordinator map, every single operation
(JoinGroup with its rebalance driver, SyncGroup, Heartbeat, LeaveGroup)
either leaves generationId unchanged or increments it by one, and over any
sequence of operations generationId never decreases. -/
theorem generation_monotone (config : KafsarConfig) :
    (∀ (st : GroupCoordinatorStandalone) (op : CoordinatorOp)
        (st' : GroupCoordinatorStandalone) (key : String) (g g' : Group),
      applyOp config st op = some st' →
      alistLookup st.groupManager key = some g →
      alistLookup st'.groupManager key = some g' →
      (g'.generationId = g.generationId ∨ g'.generationId = g.generationId + 1)) ∧
    (∀ (ops : List CoordinatorOp) (st st' : GroupCoordinatorStandalone)
        (key : String) (g g' : Group),
      runOps config st ops = some st' →
      alistLookup st.groupManager key = some g →
      alistLookup st'.groupManager key = some g' →
      g.generationId ≤ g'.generationId) := by
  constructor
  · intro st op st' key g g' happ hg hg'
    obtain ⟨g'', hgl, hgen⟩ := applyOp_generationId config st op st' happ key g hg
    have : g'' = g' := Option.some.inj (hgl.symm.trans hg')
    subst this
    exact hgen
  · intro ops st st' key g g' h hg hg'
    exact runOps_generationId config ops st st' key g g' h hg hg'

/-- Witness for C4: member "A" leaves the demo group; the new generation is
the old one or its successor (here: incremented from 1 to 2). -/
theorem generation_monotone_witness :
    ((alistLookup
        ((handleLeaveGroup demoState "u" "g" [{ memberId := "A" }]).1).groupManager
        "ug").map Group.generationId = some demoStableGroup.generationId) ∨
    ((alistLookup
        ((handleLeaveGroup demoState "u" "g" [{ memberId := "A" }]).1).groupManager
        "ug").map Group.generationId = some (demoStableGroup.generationId + 1)) := by
  cases hflk : alistLookup
      ((handleLeaveGroup demoState "u" "g" [{ memberId := "A" }]).1).groupManager
      "ug" with
  | none => exact absurd hflk (by decide)
  | some G =>
    have hstep := (generation_monotone demoConfig).1 demoState
      (CoordinatorOp.leave "u" "g" [{ memberId := "A" }])
      (handleLeaveGroup demoState "u" "g" [{ memberId := "A" }]).1 "ug"
      demoStableGroup G rfl (by decide) hflk
    rcases hstep with he | he
    · exact Or.inl (congrArg some he)
    · exact Or.inr (congrArg some he)

end Kafsar

namespace Kafsar

theorem alistErase_insert {α : Type} (l : List (String × α)) (k : String) (v : α) :
    alistErase (alistInsert l k v) k = l.filter (fun p => p.1 ≠ k) := by
  unfold alistErase alistInsert
  rw [List.filter_cons]
  have hhead : (decide ((k, v).1 ≠ k)) = false := by simp
  rw [hhead]
  simp only [Bool.false_eq_true, if_false]
  rw [List.filter_filter]
  apply List.filter_congr
  intro a _
  exact Bool.and_self _

theorem checkJoin_survivor (g : Group) (mid : String) (m : MemberMetadata)
    (hc : ¬ checkJoinMemberGenerationId { g with members := alistInsert g.members mid { m with joinGenerationId := g.generationId } } = true) :
    g.members.filter (fun p => p.1 ≠ mid) ≠ [] := by
  intro hnil
  apply hc
  unfold checkJoinMemberGenerationId
  dsimp only
  unfold alistInsert
  rw [hnil]
  simp

theorem joinAwaitPhase_members_ne (g : Group) (mid : String) (b : Bool)
    (hm : (alistLookup g.members mid).isSome = true) :
    ((joinAwaitPhase g mid b).1).members ≠ [] := by
  obtain ⟨m, hmm⟩ := Option.isSome_iff_exists.mp hm
  unfold joinAwaitPhase awaitingJoin
  rw [hmm]
  dsimp only
  by_cases hc : checkJoinMemberGenerationId { g with members := alistInsert g.members mid { m with joinGenerationId := g.generationId } } = true
  · rw [if_pos hc]
    dsimp only
    rw [if_pos rfl]
    rw [getLeaderMembers_members]
    simp [alistInsert]
  · rw [if_neg hc]
    dsimp only
    rw [if_neg (by decide : ¬ ((false : Bool) = true))]
    cases b with
    | true =>
      rw [if_pos rfl]
      show alistErase (alistInsert g.members mid _) mid ≠ []
      rw [alistErase_insert]
      exact checkJoin_survivor g mid m hc
    | false =>
      rw [if_neg (by decide : ¬ ((false : Bool) = true))]
      simp [alistInsert]

theorem joinCompletingTail_members_ne (g : Group) (mid : String) (b : Bool)
    (hm : (alistLookup g.members mid).isSome = true) :
    ((joinCompletingTail g mid b).1).members ≠ [] := by
  have hm2 : (alistLookup ((getLeaderMembers g mid).1).members mid).isSome = true := by
    rw [getLeaderMembers_members]
    exact hm
  obtain ⟨m, hmm⟩ := Option.isSome_iff_exists.mp hm2
  unfold joinCompletingTail awaitingJoin
  dsimp only
  rw [hmm]
  dsimp only
  by_cases hc : checkJoinMemberGenerationId { (getLeaderMembers g mid).1 with members := alistInsert ((getLeaderMembers g mid).1).members mid { m with joinGenerationId := ((getLeaderMembers g mid).1).generationId } } = true
  · rw [if_pos hc]
    dsimp only
    rw [if_pos rfl]
    simp [alistInsert]
  · rw [if_neg hc]
    dsimp only
    rw [if_neg (by decide : ¬ ((false : Bool) = true))]
    cases b with
    | true =>
      rw [if_pos rfl]
      show alistErase (alistInsert ((getLeaderMembers g mid).1).members mid _) mid ≠ []
      rw [alistErase_insert]
      exact checkJoin_survivor ((getLeaderMembers g mid).1) mid m hc
    | false =>
      rw [if_neg (by decide : ¬ ((false : Bool) = true))]
      simp [alistInsert]

theorem addMemberAndRebalance_members_ne (g : Group) (c mid pt : String)
    (ps : List GroupProtocol) (uu : String) :
    ((addMemberAndRebalance g c mid pt ps uu).2.1).members ≠ [] := by
  unfold addMemberAndRebalance
  dsimp only
  rw [doRebalance_members]
  dsimp only
  simp [alistInsert]

end Kafsar

namespace Kafsar

theorem alistLookup_isSome_ne_nil {α : Type} (l : List (String × α)) (k : String)
    (h : (alistLookup l k).isSome = true) : l ≠ [] := by
  intro hnil
  rw [hnil] at h
  simp [alistLookup] at h

theorem updateMemberAndRebalance_members (g : Group) (c mid pt : String)
    (ps : List GroupProtocol) :
    ((updateMemberAndRebalance g c mid pt ps).1).members = g.members := by
  unfold updateMemberAndRebalance
  exact doRebalance_members g

theorem joinPreparing_members_or (g : Group) (mid c pt : String)
    (ps : List GroupProtocol) (uu : String) :
    (joinPreparing g mid c pt ps uu).1 = g ∨
    ((joinPreparing g mid c pt ps uu).1).members ≠ [] := by
  unfold joinPreparing addNewMemberAndReBalance
  dsimp only
  by_cases hn : mid = EmptyMemberId ∨ checkMemberExist g mid = false
  · rw [if_pos hn]
    by_cases hw : g.members.length > 0 ∧ g.groupStatus ≠ GroupStatus.Stable
    · rw [if_pos hw]
      dsimp only
      rw [if_pos rfl]
      exact Or.inl rfl
    · rw [if_neg hw]
      by_cases hok : (addMemberAndRebalance g c mid pt ps uu).2.2 = false
      · rw [if_pos hok]
        exact Or.inr (addMemberAndRebalance_members_ne g c mid pt ps uu)
      · rw [if_neg hok]
        exact Or.inr (joinAwaitPhase_members_ne _ _ _
          (addMemberAndRebalance_lookup g c mid pt ps uu))
  · rw [if_neg hn]
    push_neg at hn
    have hex : (alistLookup g.members mid).isSome = true := by
      cases hcm : checkMemberExist g mid
      · exact absurd hcm hn.2
      · exact hcm
    exact Or.inr (joinAwaitPhase_members_ne g mid _ hex)

theorem joinEmptyStable_members_or (g : Group) (mid c pt : String)
    (ps : List GroupProtocol) (uu : String) :
    (joinEmptyStable g mid c pt ps uu).1 = g ∨
    ((joinEmptyStable g mid c pt ps uu).1).members ≠ [] := by
  unfold joinEmptyStable addNewMemberAndReBalance
  dsimp only
  by_cases hn : mid = EmptyMemberId ∨ checkMemberExist g mid = false
  · rw [if_pos hn]
    by_cases hw : g.members.length > 0 ∧ g.groupStatus ≠ GroupStatus.Stable
    · rw [if_pos hw]
      dsimp only
      rw [if_pos rfl]
      exact Or.inl rfl
    · rw [if_neg hw]
      by_cases hok : (addMemberAndRebalance g c mid pt ps uu).2.2 = false
      · rw [if_pos hok]
        exact Or.inr (addMemberAndRebalance_members_ne g c mid pt ps uu)
      · rw [if_neg hok]
        exact Or.inr (joinAwaitPhase_members_ne _ _ _
          (addMemberAndRebalance_lookup g c mid pt ps uu))
  · rw [if_neg hn]
    push_neg at hn
    have hex : (alistLookup g.members mid).isSome = true := by
      cases hcm : checkMemberExist g mid
      · exact absurd hcm hn.2
      · exact hcm
    by_cases hl : g.leader = mid ∨ matchProtocols g.groupProtocols ps = false
    · rw [if_pos hl]
      by_cases hok : (updateMemberAndRebalance g c mid pt ps).2 = false
      · rw [if_pos hok]
        refine Or.inr ?_
        show ((updateMemberAndRebalance g c mid pt ps).1).members ≠ []
        rw [updateMemberAndRebalance_members]
        exact alistLookup_isSome_ne_nil g.members mid hex
      · rw [if_neg hok]
        refine Or.inr (joinAwaitPhase_members_ne _ _ _ ?_)
        show (alistLookup ((updateMemberAndRebalance g c mid pt ps).1).members mid).isSome = true
        rw [updateMemberAndRebalance_members]
        exact hex
    · rw [if_neg hl]
      exact Or.inr (joinAwaitPhase_members_ne g mid _ hex)

theorem joinCompleting_members_or (g : Group) (mid c pt : String)
    (ps : List GroupProtocol) (uu : String) :
    (joinCompleting g mid c pt ps uu).1 = g ∨
    ((joinCompleting g mid c pt ps uu).1).members ≠ [] := by
  unfold joinCompleting addNewMemberAndReBalance
  dsimp only
  by_cases hn : mid = EmptyMemberId ∨ checkMemberExist g mid = false
  · rw [if_pos hn]
    by_cases hw : g.members.length > 0 ∧ g.groupStatus ≠ GroupStatus.Stable
    · rw [if_pos hw]
      dsimp only
      rw [if_pos rfl]
      exact Or.inl rfl
    · rw [if_neg hw]
      by_cases hok : (addMemberAndRebalance g c mid pt ps uu).2.2 = false
      · rw [if_pos hok]
        exact Or.inr (addMemberAndRebalance_members_ne g c mid pt ps uu)
      · rw [if_neg hok]
        exact Or.inr (joinCompletingTail_members_ne _ _ _
          (addMemberAndRebalance_lookup g c mid pt ps uu))
  · rw [if_neg hn]
    push_neg at hn
    have hex : (alistLookup g.members mid).isSome = true := by
      cases hcm : checkMemberExist g mid
      · exact absurd hcm hn.2
      · exact hcm
    by_cases hl : matchProtocols g.groupProtocols ps = false
    · rw [if_pos hl]
      by_cases hok : (updateMemberAndRebalance g c mid pt ps).2 = false
      · rw [if_pos hok]
        refine Or.inr ?_
        show ((updateMemberAndRebalance g c mid pt ps).1).members ≠ []
        rw [updateMemberAndRebalance_members]
        exact alistLookup_isSome_ne_nil g.members mid hex
      · rw [if_neg hok]
        refine Or.inr (joinCompletingTail_members_ne _ _ _ ?_)
        show (alistLookup ((updateMemberAndRebalance g c mid pt ps).1).members mid).isSome = true
        rw [updateMemberAndRebalance_members]
        exact hex
    · rw [if_neg hl]
      exact Or.inr (joinCompletingTail_members_ne g mid _ hex)

theorem joinGroupCore_members_or (config : KafsarConfig) (g : Group)
    (mid c pt : String) (ps : List GroupProtocol) (uu : String) :
    (joinGroupCore config g mid c pt ps uu).1 = g ∨
    ((joinGroupCore config g mid c pt ps uu).1).members ≠ [] := by
  unfold joinGroupCore
  cases hpc : joinGroupProtocolCheck g pt ps with
  | some code => exact Or.inl rfl
  | none =>
    dsimp only
    by_cases hcap : config.maxConsumersPerGroup > 0 ∧
        (g.members.length : Int) ≥ config.maxConsumersPerGroup
    · rw [if_pos hcap]
      exact Or.inl rfl
    · rw [if_neg hcap]
      by_cases hdead : g.groupStatus = GroupStatus.Dead
      · rw [if_pos hdead]
        exact Or.inl rfl
      · rw [if_neg hdead]
        by_cases hprep : g.groupStatus = GroupStatus.PreparingRebalance
        · rw [if_pos hprep]
          exact joinPreparing_members_or g mid c pt ps uu
        · rw [if_neg hprep]
          by_cases hcomp : g.groupStatus = GroupStatus.CompletingRebalance
          · rw [if_pos hcomp]
            exact joinCompleting_members_or g mid c pt ps uu
          · rw [if_neg hcomp]
            by_cases hes : g.groupStatus = GroupStatus.Empty ∨
                g.groupStatus = GroupStatus.Stable
            · rw [if_pos hes]
              exact joinEmptyStable_members_or g mid c pt ps uu
            · rw [if_neg hes]
              exact Or.inl rfl

end Kafsar

namespace Kafsar

theorem storeAssignments_isSome_preserved (as : List GroupAssignment) :
    ∀ (members ms : List (String × MemberMetadata)) (k : String),
      storeAssignments members as = some ms →
      (alistLookup members k).isSome = true →
      (alistLookup ms k).isSome = true := by
  induction as with
  | nil =>
    intro members ms k h hk
    unfold storeAssignments at h
    injection h with h
    rw [← h]
    exact hk
  | cons a rest ih =>
    intro members ms k h hk
    unfold storeAssignments at h
    cases hm : alistLookup members a.memberId with
    | none =>
      rw [hm] at h
      exact absurd h (by simp)
    | some m =>
      rw [hm] at h
      exact ih _ _ _ h (alistLookup_insert_isSome _ _ _ _ hk)

theorem syncCompleting_members_ne (g : Group) (mid : String)
    (as : List GroupAssignment) (r : Group × SyncGroupResp)
    (hm : (alistLookup g.members mid).isSome = true)
    (hr : syncCompleting g mid as = some r) :
    (r.1).members ≠ [] := by
  unfold syncCompleting at hr
  cases hs : (if g.leader = mid then storeAssignments g.members as
              else some g.members) with
  | none =>
    rw [hs] at hr
    exact absurd hr (by simp)
  | some members1 =>
    rw [hs] at hr
    dsimp only at hr
    have hm1 : (alistLookup members1 mid).isSome = true := by
      by_cases hl : g.leader = mid
      · rw [if_pos hl] at hs
        exact storeAssignments_isSome_preserved as g.members members1 mid hs hm
      · rw [if_neg hl] at hs
        injection hs with hs
        rw [← hs]
        exact hm
    obtain ⟨m, hmm⟩ := Option.isSome_iff_exists.mp hm1
    rw [hmm] at hr
    dsimp only at hr
    split at hr <;>
      (injection hr with hr
       rw [← hr]
       dsimp only
       split <;> simp [alistInsert])

end Kafsar

namespace Kafsar

theorem handleJoinGroup_inv (config : KafsarConfig)
    (st : GroupCoordinatorStandalone) (u g m c p : String) (t : Int)
    (ps : List GroupProtocol) (uu : String)
    (hinv : ∀ key gr, alistLookup st.groupManager key = some gr →
      gr.members = [] →
      gr.groupStatus = GroupStatus.Empty ∨ gr.groupStatus = GroupStatus.Dead) :
    ∀ key gr,
      alistLookup ((handleJoinGroup config st u g m c p t ps uu).1).groupManager key
        = some gr →
      gr.members = [] →
      gr.groupStatus = GroupStatus.Empty ∨ gr.groupStatus = GroupStatus.Dead := by
  intro key gr hlk hmem
  unfold handleJoinGroup at hlk
  cases hpar : joinGroupParamsCheck config g t with
  | some code =>
    rw [hpar] at hlk
    exact hinv key gr hlk hmem
  | none =>
    rw [hpar] at hlk
    dsimp only at hlk
    cases hg0 : alistLookup st.groupManager (u ++ g) with
    | some gExist =>
      rw [hg0] at hlk
      dsimp only at hlk
      by_cases hkey : key = u ++ g
      · subst hkey
        rw [alistLookup_insert_self] at hlk
        injection hlk with hlk
        rcases joinGroupCore_members_or config gExist m c p ps uu with he | hne
        · rw [hlk] at he
          rw [he] at hmem ⊢
          exact hinv (u ++ g) gExist hg0 hmem
        · rw [hlk] at hne
          exact absurd hmem hne
      · rw [alistLookup_insert_ne _ _ _ _ hkey,
            alistLookup_insert_ne _ _ _ _ hkey] at hlk
        exact hinv key gr hlk hmem
    | none =>
      rw [hg0] at hlk
      dsimp only at hlk
      by_cases hkey : key = u ++ g
      · subst hkey
        rw [alistLookup_insert_self] at hlk
        injection hlk with hlk
        rcases joinGroupCore_members_or config (newGroup g p t) m c p ps uu with he | hne
        · rw [hlk] at he
          rw [he]
          exact Or.inl rfl
        · rw [hlk] at hne
          exact absurd hmem hne
      · rw [alistLookup_insert_ne _ _ _ _ hkey,
            alistLookup_insert_ne _ _ _ _ hkey] at hlk
        exact hinv key gr hlk hmem

theorem handleSyncGroup_inv (st : GroupCoordinatorStandalone) (u g m : String)
    (gen : Int) (as : List GroupAssignment)
    (r : GroupCoordinatorStandalone × SyncGroupResp)
    (hr : handleSyncGroup st u g m gen as = some r)
    (hinv : ∀ key gr, alistLookup st.groupManager key = some gr →
      gr.members = [] →
      gr.groupStatus = GroupStatus.Empty ∨ gr.groupStatus = GroupStatus.Dead) :
    ∀ key gr, alistLookup (r.1).groupManager key = some gr →
      gr.members = [] →
      gr.groupStatus = GroupStatus.Empty ∨ gr.groupStatus = GroupStatus.Dead := by
  intro key gr hlk hmem
  unfold handleSyncGroup at hr
  cases hpar : syncGroupParamsCheck g m with
  | some code =>
    rw [hpar] at hr
    injection hr with hr
    rw [← hr] at hlk
    exact hinv key gr hlk hmem
  | none =>
    rw [hpar] at hr
    dsimp only at hr
    cases hg0 : alistLookup st.groupManager (u ++ g) with
    | none =>
      rw [hg0] at hr
      injection hr with hr
      rw [← hr] at hlk
      exact hinv key gr hlk hmem
    | some group =>
      rw [hg0] at hr
      dsimp only at hr
      cases hmem0 : alistLookup group.members m with
      | none =>
        rw [hmem0] at hr
        injection hr with hr
        rw [← hr] at hlk
        exact hinv key gr hlk hmem
      | some curMember =>
        rw [hmem0] at hr
        dsimp only at hr
        by_cases h1 : group.groupStatus = GroupStatus.Empty ∨
            group.groupStatus = GroupStatus.Dead
        · rw [if_pos h1] at hr
          injection hr with hr
          rw [← hr] at hlk
          exact hinv key gr hlk hmem
        · rw [if_neg h1] at hr
          by_cases h2 : group.groupStatus = GroupStatus.PreparingRebalance
          · rw [if_pos h2] at hr
            injection hr with hr
            rw [← hr] at hlk
            exact hinv key gr hlk hmem
          · rw [if_neg h2] at hr
            by_cases h3 : group.groupStatus = GroupStatus.CompletingRebalance
            · rw [if_pos h3] at hr
              cases hsc : syncCompleting group m as with
              | none =>
                rw [hsc] at hr
                exact absurd hr (by simp)
              | some r2 =>
                rw [hsc] at hr
                injection hr with hr
                rw [← hr] at hlk
                dsimp only at hlk
                by_cases hkey : key = u ++ g
                · subst hkey
                  rw [alistLookup_insert_self] at hlk
                  injection hlk with hlk
                  have hm0 : (alistLookup group.members m).isSome = true := by
                    rw [hmem0]; rfl
                  have hne := syncCompleting_members_ne group m as r2 hm0 hsc
                  rw [hlk] at hne
                  exact absurd hmem hne
                · rw [alistLookup_insert_ne _ _ _ _ hkey] at hlk
                  exact hinv key gr hlk hmem
            · rw [if_neg h3] at hr
              by_cases h4 : group.groupStatus = GroupStatus.Stable
              · rw [if_pos h4] at hr
                injection hr with hr
                rw [← hr] at hlk
                exact hinv key gr hlk hmem
              · rw [if_neg h4] at hr
                injection hr with hr
                rw [← hr] at hlk
                exact hinv key gr hlk hmem

theorem handleLeaveGroup_inv (st : GroupCoordinatorStandalone) (u g : String)
    (ms : List LeaveGroupMember)
    (hinv : ∀ key gr, alistLookup st.groupManager key = some gr →
      gr.members = [] →
      gr.groupStatus = GroupStatus.Empty ∨ gr.groupStatus = GroupStatus.Dead) :
    ∀ key gr,
      alistLookup ((handleLeaveGroup st u g ms).1).groupManager key = some gr →
      gr.members = [] →
      gr.groupStatus = GroupStatus.Empty ∨ gr.groupStatus = GroupStatus.Dead := by
  intro key gr hlk hmem
  unfold handleLeaveGroup at hlk
  by_cases hg0 : g = ""
  · rw [if_pos hg0] at hlk
    exact hinv key gr hlk hmem
  · rw [if_neg hg0] at hlk
    cases hfind : alistLookup st.groupManager (u ++ g) with
    | none =>
      rw [hfind] at hlk
      exact hinv key gr hlk hmem
    | some group =>
      rw [hfind] at hlk
      dsimp only at hlk
      by_cases hkey : key = u ++ g
      · subst hkey
        rw [alistLookup_insert_self] at hlk
        injection hlk with hlk
        by_cases hemp : ((leaveLoop group ms).members.isEmpty : Bool) = true
        · rw [if_pos hemp] at hlk
          rw [← hlk]
          exact Or.inl rfl
        · rw [if_neg hemp] at hlk
          rw [← hlk] at hmem
          dsimp only at hmem
          exact absurd (List.isEmpty_iff.mpr hmem) hemp
      · rw [alistLookup_insert_ne _ _ _ _ hkey] at hlk
        exact hinv key gr hlk hmem

theorem applyOp_inv (config : KafsarConfig) (st st1 : GroupCoordinatorStandalone)
    (op : CoordinatorOp) (happ : applyOp config st op = some st1)
    (hinv : ∀ key gr, alistLookup st.groupManager key = some gr →
      gr.members = [] →
      gr.groupStatus = GroupStatus.Empty ∨ gr.groupStatus = GroupStatus.Dead) :
    ∀ key gr, alistLookup st1.groupManager key = some gr →
      gr.members = [] →
      gr.groupStatus = GroupStatus.Empty ∨ gr.groupStatus = GroupStatus.Dead := by
  cases op with
  | join u g m c p t ps uu =>
    unfold applyOp at happ
    injection happ with happ
    rw [← happ]
    exact handleJoinGroup_inv config st u g m c p t ps uu hinv
  | sync u g m gen as =>
    unfold applyOp at happ
    dsimp only at happ
    cases hs : handleSyncGroup st u g m gen as with
    | none =>
      rw [hs] at happ
      exact absurd happ (by simp)
    | some r =>
      rw [hs] at happ
      injection happ with happ
      rw [← happ]
      exact handleSyncGroup_inv st u g m gen as r hs hinv
  | heartbeat u g m =>
    unfold applyOp at happ
    injection happ with happ
    rw [← happ]
    exact hinv
  | leave u g ms =>
    unfold applyOp at happ
    injection happ with happ
    rw [← happ]
    exact handleLeaveGroup_inv st u g ms hinv

theorem runOps_inv (config : KafsarConfig) (ops : List CoordinatorOp) :
    ∀ (st st1 : GroupCoordinatorStandalone),
      runOps config st ops = some st1 →
      (∀ key gr, alistLookup st.groupManager key = some gr →
        gr.members = [] →
        gr.groupStatus = GroupStatus.Empty ∨ gr.groupStatus = GroupStatus.Dead) →
      ∀ key gr, alistLookup st1.groupManager key = some gr →
        gr.members = [] →
        gr.groupStatus = GroupStatus.Empty ∨ gr.groupStatus = GroupStatus.Dead := by
  induction ops with
  | nil =>
    intro st st1 hrun hinv
    unfold runOps at hrun
    injection hrun with hrun
    rw [← hrun]
    exact hinv
  | cons op rest ih =>
    intro st st1 hrun hinv
    unfold runOps at hrun
    cases happ : applyOp config st op with
    | none =>
      rw [happ] at hrun
      exact absurd hrun (by simp)
    | some stMid =>
      rw [happ] at hrun
      exact ih stMid st1 hrun (applyOp_inv config st stMid op happ hinv)

end Kafsar

namespace Kafsar

/-- C2: starting from the freshly constructed coordinator, after any fault-free
sequence of JoinGroup (including join-barrier timeouts and their eviction of
empty-memberId joiners), SyncGroup, Heartbeat and LeaveGroup operations, every
group in the registry whose member map is empty has status Empty or Dead. -/
theorem members_empty_implies_inactive (config : KafsarConfig)
    (ops : List CoordinatorOp) (st1 : GroupCoordinatorStandalone)
    (hrun : runOps config initialCoordinator ops = some st1) :
    ∀ key gr, alistLookup st1.groupManager key = some gr →
      gr.members = [] →
      gr.groupStatus = GroupStatus.Empty ∨ gr.groupStatus = GroupStatus.Dead := by
  apply runOps_inv config ops initialCoordinator st1 hrun
  intro key gr hlk
  exact absurd hlk (by simp [initialCoordinator, alistLookup])

theorem members_empty_implies_inactive_witness :
    (runOps demoConfig initialCoordinator demoOps = some demoFinal ∧
     alistLookup demoFinal.groupManager "ug" = some demoFinalGroup ∧
     demoFinalGroup.members = []) ∧
    (demoFinalGroup.groupStatus = GroupStatus.Empty ∨
     demoFinalGroup.groupStatus = GroupStatus.Dead) :=
  ⟨⟨rfl, rfl, rfl⟩,
   members_empty_implies_inactive demoConfig demoOps demoFinal rfl "ug"
     demoFinalGroup rfl rfl⟩

end Kafsar
